import Mathlib

/-!
Verification development for the generative-dynamic-ui repository.

The TypeScript sources are shallowly embedded in Lean:
JavaScript runtime values become the inductive type `Value` (JS objects are
ordered association lists, as JS preserves insertion order of string keys);
functions that can raise a JS `TypeError` are embedded in `Except String`;
total functions are plain Lean functions.  Machine arithmetic that matters
(the 32-bit rolling context hash) is modelled with `Int` and explicit
wrapping modulo 2^32.  All recursion is structural so every definition
evaluates by `rfl` or `decide` on concrete inputs.
-/

set_option linter.unusedVariables false

namespace GenUI

/-- JavaScript runtime value: null, undefined, number, string, boolean,
array, or object (ordered key-value fields, first occurrence wins on
lookup, mirroring a real JS object where keys are unique). Numbers are
modelled as integers; every number the repository manipulates is integral. -/
inductive Value where
  | vNull
  | vUndef
  | vNum (n : Int)
  | vStr (s : String)
  | vBool (b : Bool)
  | vArr (elems : List Value)
  | vObj (fields : List (String × Value))

/-- A JS object (`Record<string, any>`): ordered list of fields. -/
abbrev Obj := List (String × Value)

/-- JS truthiness: null, undefined, 0, the empty string and false are falsy. -/
def jsTruthy : Value → Bool
  | .vNull => false
  | .vUndef => false
  | .vNum n => n != 0
  | .vStr s => s ≠ ""
  | .vBool b => b
  | .vArr _ => true
  | .vObj _ => true

/-- First field with the given key, `none` when absent (JS objects have
unique keys; on a model list with duplicates the first occurrence wins,
consistently across all object operations below). -/
def objGet (o : Obj) (k : String) : Option Value :=
  match o.find? (fun p => p.1 = k) with
  | some p => some p.2
  | none => none

/-- Assign a key: replace the value at the first occurrence of the key,
keeping its position, or append a fresh field (JS assignment semantics). -/
def objSet (o : Obj) (k : String) (v : Value) : Obj :=
  match o with
  | [] => [(k, v)]
  | (k0, v0) :: rest => if k0 = k then (k, v) :: rest else (k0, v0) :: objSet rest k v

/-- Deduplicated fields in first-occurrence order: the model of
`Object.entries` (on a real JS object this is the identity). -/
def objEntries (o : Obj) : Obj :=
  match o with
  | [] => []
  | (k, v) :: rest => (k, v) :: (objEntries rest).filter (fun p => p.1 ≠ k)

/-- Model of `Object.keys`. -/
def objKeys (o : Obj) : List String := (objEntries o).map Prod.fst

/-- Model of `Object.values`. -/
def objValues (o : Obj) : List Value := (objEntries o).map Prod.snd

def isNumV : Value → Bool
  | .vNum _ => true
  | _ => false

def isStrV : Value → Bool
  | .vStr _ => true
  | _ => false

def isNullOrUndef : Value → Bool
  | .vNull => true
  | .vUndef => true
  | _ => false

/-- pat is a prefix of s (char lists). -/
def charsStartWith : List Char → List Char → Bool
  | _, [] => true
  | [], _ :: _ => false
  | c :: cs, p :: ps => c = p && charsStartWith cs ps

/-- pat occurs somewhere inside s (char lists). -/
def charsInclude (s pat : List Char) : Bool :=
  match s with
  | [] => pat.isEmpty
  | _ :: rest => charsStartWith s pat || charsInclude rest pat

/-- Model of `String.prototype.includes`. -/
def strIncludes (s pat : String) : Bool := charsInclude s.data pat.data

/-- Model of `String.prototype.toLowerCase` (ASCII, which is all the
repository feeds it). -/
def jsToLower (s : String) : String := String.mk (s.data.map Char.toLower)

/-- JS word character, the regex class backslash-w without the unicode flag. -/
def isWordChar (c : Char) : Bool := c.isAlpha || c.isDigit || c = '_'

def splitOnDotAux : List Char → List Char → List String
  | [], acc => [String.mk acc.reverse]
  | c :: cs, acc =>
    if c = '.' then String.mk acc.reverse :: splitOnDotAux cs []
    else splitOnDotAux cs (c :: acc)

/-- Model of `path.split(".")`; in particular the empty string splits to
a single empty segment, exactly as in JS. -/
def splitOnDot (s : String) : List String := splitOnDotAux s.data []

def digitsToNatAux : List Char → Nat → Nat
  | [], acc => acc
  | c :: cs, acc => digitsToNatAux cs (acc * 10 + (c.toNat - 48))

/-- Numeric value of a nonempty decimal digit string; the model of
`parseInt(s, 10)` on the all-digit strings the bracket-segment regex
guarantees. -/
def digitsToNat (s : String) : Nat := digitsToNatAux s.data 0

def allDigits (cs : List Char) : Bool := cs.all Char.isDigit

def digitChar (d : Nat) : Char := Char.ofNat (48 + d)

def natToCharsGo : Nat → Nat → List Char
  | 0, _ => []
  | fuel + 1, n => if n < 10 then [digitChar n] else natToCharsGo fuel (n / 10) ++ [digitChar (n % 10)]

/-- Decimal rendering of a natural number (fuel-based so it reduces in
the kernel; the fuel n+1 always suffices). -/
def natToString (n : Nat) : String := String.mk (natToCharsGo (n + 1) n)

/-- Decimal rendering of an integer, as JS renders integral numbers. -/
def intToString (i : Int) : String :=
  if i < 0 then "-" ++ natToString i.natAbs else natToString i.natAbs

/-- Parse an all-digit string (used to recognise canonical array
indices). -/
def strToNatOpt (s : String) : Option Nat :=
  if s.data ≠ [] && allDigits s.data then some (digitsToNat s) else none

/-- Array-to-object view used when a wrapper field holds an array (JS
`typeof [] === "object"`): the index keys in order. -/
def arrayAsObj (xs : List Value) : Obj :=
  (List.range xs.length).map (fun i => (natToString i, xs.getD i Value.vUndef))

/-- Object view of a JS array for the setter: its canonical index
properties plus its length property.  For every operation the binding
resolver can subsequently perform on a setter result (the `in` check,
string-key reads, bracket-index reads, named-property assignment), this
view behaves exactly like the array itself: canonical index keys read
the elements, `length` reads the (number) length, any other key misses
or stores a named property.  It lets the model represent the named
properties JS attaches to an array without a dedicated
array-with-extra-fields value; nothing else in the repository ever
consumes a value produced by `setNestedValue`. -/
def arrayObjView (xs : List Value) : Obj :=
  arrayAsObj xs ++ [("length", Value.vNum (Int.ofNat xs.length))]

/-- Parse a path segment of the exact shape `name[index]` — the regex
caret backslash-w+ bracket backslash-d+ bracket dollar in `getNestedValue`.
Returns the name and the numeric index, or `none` when the segment does
not match (then it is treated as a plain key). -/
def parseArraySeg (seg : String) : Option (String × Nat) :=
  let cs := seg.data
  let name := cs.takeWhile isWordChar
  let rest := cs.drop name.length
  match name, rest with
  | [], _ => none
  | _, '[' :: rest2 =>
    let digits := rest2.takeWhile Char.isDigit
    let rest3 := rest2.drop digits.length
    match digits, rest3 with
    | [], _ => none
    | _, [']'] => some (String.mk name, digitsToNat (String.mk digits))
    | _, _ => none
  | _, _ => none

/-- Canonical-index lookup into an array: JS `arr[k]` for a string key
`k` yields an element only when `k` is the canonical decimal form of an
index in range; `arr.length` is also a property. -/
def arrProp (xs : List Value) (k : String) : Value :=
  match strToNatOpt k with
  | some i => if natToString i = k then (xs.getD i Value.vUndef) else Value.vUndef
  | none => if k = "length" then Value.vNum (Int.ofNat xs.length) else Value.vUndef

/-- Property access `v[k]` where `v` is known non-null/non-undefined.
Primitive receivers are boxed by JS and yield `undefined` for the keys
this repository ever uses (no string index or `.length` access occurs on
a traversal path). -/
def propAccess (v : Value) (k : String) : Value :=
  match v with
  | .vObj fs => (objGet fs k).getD Value.vUndef
  | .vArr xs => arrProp xs k
  | .vStr s =>
    match strToNatOpt k with
    | some i =>
      if natToString i = k && i < s.length then Value.vStr (String.mk [s.data.getD i ' '])
      else Value.vUndef
    | none => if k = "length" then Value.vNum (Int.ofNat s.length) else Value.vUndef
  | _ => Value.vUndef

/-- Numeric property access `v[i]` behind optional chaining: a
null/undefined receiver yields `undefined` (this is the
`current[arrayKey]?.[parseInt(index, 10)]` step).  A string receiver is
boxed and indexed character-wise, as in JS. -/
def propAccessNum (v : Value) (i : Nat) : Value :=
  match v with
  | .vArr xs => xs.getD i Value.vUndef
  | .vObj fs => (objGet fs (natToString i)).getD Value.vUndef
  | .vStr s => if i < s.length then Value.vStr (String.mk [s.data.getD i ' ']) else Value.vUndef
  | _ => Value.vUndef

/-- JS property access that models the `TypeError` thrown on a
null/undefined receiver. -/
def propAccessE (v : Value) (k : String) : Except String Value :=
  match v with
  | .vNull => .error "TypeError: cannot read properties of null"
  | .vUndef => .error "TypeError: cannot read properties of undefined"
  | _ => .ok (propAccess v k)

/-- One traversal step of `getNestedValue` for a segment, on a receiver
already checked non-null: bracket segments read `current[name]` and then
optionally index it, plain segments read `current[key]`. -/
def segAccess (cur : Value) (seg : String) : Value :=
  match parseArraySeg seg with
  | some (name, idx) =>
    let mid := propAccess cur name
    if isNullOrUndef mid then Value.vUndef else propAccessNum mid idx
  | none => propAccess cur seg

/-- The same step in the throwing model: the only possibly-throwing
primitive is the first property read, and the loop in the source has
already guarded the receiver against null/undefined. -/
def segAccessE (cur : Value) (seg : String) : Except String Value :=
  match parseArraySeg seg with
  | some (name, idx) => do
    let mid ← propAccessE cur name
    if isNullOrUndef mid then pure Value.vUndef else pure (propAccessNum mid idx)
  | none => propAccessE cur seg

/-- The traversal loop of `getNestedValue`: at each key the source first
returns `undefined` if the current value is null/undefined, then takes
one access step. -/
def getNestedGo : Value → List String → Except String Value
  | cur, [] => .ok cur
  | cur, seg :: rest =>
    if isNullOrUndef cur then .ok Value.vUndef
    else do
      let nxt ← segAccessE cur seg
      getNestedGo nxt rest

/-- Embedding of `getNestedValue(obj, path)` from the binding resolver,
including the up-front falsy guard on `obj` and `path`. -/
def getNestedValue (obj : Value) (path : String) : Except String Value :=
  if !(jsTruthy obj) || path = "" then .ok Value.vUndef
  else getNestedGo obj (splitOnDot path)

/-- The recursive core of `setNestedValue`.  The source walks the
non-final segments with `if (!(key in current)) current[key] = \x7b\x7d`
and `current = current[key]`, then assigns at the last key.  The `in`
operator and the final assignment throw a `TypeError` when `current` is
null, undefined, or a primitive, which the model reports as an error.
An array receiver does not throw: `in` and named-property assignment
are legal on arrays, so the model continues through `arrayObjView`,
whose index and length properties read and update exactly as the
array itself would and whose other keys store the named properties JS
would attach to the array object.  (An assignment whose final key is
`length` with a value that is not a valid array length would raise a
RangeError in JS, and an element write past the end would also grow
the JS length; the view stores the value and keeps the recorded length
instead — no claim and no caller of the repository reaches those
corners, which affect only the stored length, never the throw/no-throw
behaviour.) -/
def setNestedGo : Value → List String → String → Value → Except String Value
  | .vObj fs, [], lastKey, v => .ok (.vObj (objSet fs lastKey v))
  | .vArr xs, [], lastKey, v => .ok (.vObj (objSet (arrayObjView xs) lastKey v))
  | _, [], _, _ => .error "TypeError: cannot create property on primitive"
  | .vObj fs, k :: ks, lastKey, v => do
    let child := (objGet fs k).getD (.vObj [])
    let child' ← setNestedGo child ks lastKey v
    pure (.vObj (objSet fs k child'))
  | .vArr xs, k :: ks, lastKey, v => do
    let fs := arrayObjView xs
    let child := (objGet fs k).getD (.vObj [])
    let child' ← setNestedGo child ks lastKey v
    pure (.vObj (objSet fs k child'))
  | _, _ :: _, _, _ => .error "TypeError: cannot use in operator on primitive"

/-- Embedding of `setNestedValue(obj, path, value)`: split on dots, pop
the last key (if it is the empty string the source returns without
touching the object), create missing intermediates as fresh empty
objects, assign at the last key.  Returns the updated object, the
functional reading of the in-place mutation. -/
def setNestedValue (obj : Obj) (path : String) (v : Value) : Except String Obj :=
  let keys := splitOnDot path
  match keys.getLast? with
  | none => .ok obj
  | some lastKey =>
    if lastKey = "" then .ok obj
    else do
      let r ← setNestedGo (.vObj obj) (keys.dropLast) lastKey v
      match r with
      | .vObj fs => pure fs
      | _ => pure obj

/-- Embedding of `hasBinding(value)`. -/
def hasBinding (value : String) : Bool :=
  strIncludes value "$data." || strIncludes value "$item."

/-- Regex scan for one of the two binding patterns: at each position try
to match the literal prefix (`$data.` or `$item.`) followed by at least
one character of the class word/dot/brackets, take the maximal run,
continue after the match (matchAll yields non-overlapping leftmost
matches). -/
def scanBindingsGo (pre : List Char) : Nat → List Char → List String
  | 0, _ => []
  | _, [] => []
  | fuel + 1, c :: rest =>
    if charsStartWith (c :: rest) pre then
      let after := (c :: rest).drop pre.length
      let run := after.takeWhile (fun ch => isWordChar ch || ch = '.' || ch = '[' || ch = ']')
      if run.isEmpty then scanBindingsGo pre fuel rest
      else String.mk (pre ++ run) :: scanBindingsGo pre fuel (after.drop run.length)
    else scanBindingsGo pre fuel rest

/-- Run the scan with fuel equal to the input length; every step of the
scan consumes at least one character, so the fuel never runs out. -/
def scanBindings (pre : List Char) (s : List Char) : List String :=
  scanBindingsGo pre s.length s

/-- Embedding of `extractBindings(value)`: all `$data.` matches first,
then all `$item.` matches, each list in document order. -/
def extractBindings (value : String) : List String :=
  scanBindings "$data.".data value.data ++ scanBindings "$item.".data value.data

/-- Component schema node (`ComponentSchema`): the `component` kind tag is
carried as a string so that validation of unknown kinds is expressible,
`props` is a JS object, `children` is optional. -/
inductive CSchema where
  | node (component : String) (props : List (String × Value)) (children : Option (List CSchema))

/-- Allowed and required prop names per component kind: the own
properties of the `COMPONENT_SPECS` object literal; `none` for a kind
that is not an own property.  The JS lookup `COMPONENT_SPECS[c]` also
walks the prototype chain, so for an `Object.prototype` member name
(`toString`, `constructor`, ...) it yields an inherited function
rather than `undefined`; that outcome is modelled at the lookup site
in `validateErrorsE` via `OBJECT_PROTO_KEYS`. -/
def COMPONENT_SPECS (c : String) : Option (List String × List String) :=
  match c with
  | "Container" => some (["cols", "gap", "colspan"], [])
  | "Card" => some (["title", "subtitle", "actions", "colspan"], ["title"])
  | "Section" => some (["title", "collapsible"], ["title"])
  | "Metric" => some (["label", "value", "trend", "icon"], ["label", "value"])
  | "Table" => some (["columns", "rows", "sortable"], ["columns", "rows"])
  | "List" => some (["items", "avatar", "template", "actions"], ["items"])
  | "Chart" => some (["type", "data"], ["type", "data"])
  | "Button" => some (["label", "variant", "action"], ["label"])
  | "Filter" => some (["options", "multi", "target"], ["options"])
  | "Tabs" => some (["items", "default"], ["items"])
  | "Badge" => some (["label", "color"], ["label"])
  | "Progress" => some (["value", "max", "label"], ["value"])
  | _ => none

/-- Model of the `in` check `req in schema.props`. -/
def propsHave (props : List (String × Value)) (k : String) : Bool :=
  props.any (fun p => p.1 = k)

mutual
/-- Error list of `validateSchema`: an unknown kind yields a single error
and returns without visiting children; otherwise one error per missing
required prop, followed by the concatenated errors of all children. -/
def validateErrors : CSchema → List String
  | .node c props children =>
    match COMPONENT_SPECS c with
    | none => ["Unknown component: " ++ c]
    | some spec =>
      ((spec.2.filter (fun req => !(propsHave props req))).map
        (fun req => c ++ " missing required prop: " ++ req)) ++ validateChildrenErrors children

def validateChildrenErrors : Option (List CSchema) → List String
  | none => []
  | some cs => validateListErrors cs

def validateListErrors : List CSchema → List String
  | [] => []
  | c :: cs => validateErrors c ++ validateListErrors cs
end

/-- Embedding of `validateSchema(schema)` on trees whose component
strings are not `Object.prototype` member names; `valid` is true
exactly when the collected error list is empty.  The full behaviour,
including the TypeError raised on a prototype member name, is
`validateSchemaE`, which agrees with this function away from such
names. -/
def validateSchema (schema : CSchema) : Bool × List String :=
  let errors := validateErrors schema
  (errors.isEmpty, errors)

/-- The own property names of `Object.prototype`: a property lookup on
a plain object literal finds these through the prototype chain, so
`COMPONENT_SPECS[c]` for such a `c` yields an inherited (truthy)
function value instead of `undefined`. -/
def OBJECT_PROTO_KEYS : List String :=
  ["constructor", "hasOwnProperty", "isPrototypeOf", "propertyIsEnumerable",
   "toLocaleString", "toString", "valueOf",
   "__defineGetter__", "__defineSetter__", "__lookupGetter__", "__lookupSetter__",
   "__proto__"]

mutual
/-- Error collection of `validateSchema` with the prototype-chain
lookup made explicit: when the component string is an
`Object.prototype` member name, `spec` is the inherited function, the
`!spec` guard does not fire, and the `for (const req of spec.required)`
iteration over `undefined` throws a TypeError. -/
def validateErrorsE : CSchema → Except String (List String)
  | .node c props children =>
    match COMPONENT_SPECS c with
    | some spec => do
      let childErrs ← validateChildrenErrorsE children
      pure (((spec.2.filter (fun req => !(propsHave props req))).map
        (fun req => c ++ " missing required prop: " ++ req)) ++ childErrs)
    | none =>
      if OBJECT_PROTO_KEYS.contains c then
        .error "TypeError: spec.required is not iterable"
      else .ok ["Unknown component: " ++ c]

def validateChildrenErrorsE : Option (List CSchema) → Except String (List String)
  | none => .ok []
  | some cs => validateListErrorsE cs

def validateListErrorsE : List CSchema → Except String (List String)
  | [] => .ok []
  | c :: cs => do
    let e1 ← validateErrorsE c
    let e2 ← validateListErrorsE cs
    pure (e1 ++ e2)
end

/-- Full embedding of `validateSchema(schema)`: the error result is the
TypeError thrown on a component string that is an `Object.prototype`
member name. -/
def validateSchemaE (schema : CSchema) : Except String (Bool × List String) :=
  (validateErrorsE schema).map (fun errors => (errors.isEmpty, errors))

mutual
/-- Some node of the tree has an `Object.prototype` member name as its
component string (the trees on which validation throws before
reporting). -/
def hasProtoKeyNode : CSchema → Bool
  | .node c _ children => OBJECT_PROTO_KEYS.contains c || hasProtoKeyChildren children

def hasProtoKeyChildren : Option (List CSchema) → Bool
  | none => false
  | some cs => hasProtoKeyList cs

def hasProtoKeyList : List CSchema → Bool
  | [] => false
  | c :: cs => hasProtoKeyNode c || hasProtoKeyList cs
end

def isVNull : Value → Bool
  | .vNull => true
  | _ => false

/-- JS `typeof v === "object"` (true for objects, arrays and null). -/
def isObjectTypeof : Value → Bool
  | .vObj _ => true
  | .vArr _ => true
  | .vNull => true
  | _ => false

/-- Model of the `in` operator on an object or array receiver (the
analyzer only applies it behind a `typeof === "object"` and non-null
guard; the prototype chain is not modelled, and no guarded call site
ever probes an inherited key). -/
def jsHasKey (v : Value) (k : String) : Bool :=
  match v with
  | .vObj fs => fs.any (fun p => p.1 = k)
  | .vArr xs =>
    match strToNatOpt k with
    | some i => natToString i = k && i < xs.length
    | none => k = "length"
  | _ => false

/-- Insert into an ordered set: the model of `Set.add` followed by
`Array.from`, which preserves insertion order. -/
def addSet (l : List String) (s : String) : List String :=
  if l.contains s then l else l ++ [s]

/-- Embedding of `detectDataTypes(data)` from the context analyzer. -/
def detectDataTypes (data : Obj) : List String :=
  if (objKeys data).length = 0 then []
  else
    (objEntries data).foldl
      (fun types kv =>
        let value := kv.2
        let types :=
          match value with
          | .vNum _ => addSet types "metrics"
          | _ => types
        let types :=
          match value with
          | .vArr elems =>
            let types := addSet types "lists"
            if elems.length > 0 &&
                elems.any (fun item =>
                  isObjectTypeof item && !(isVNull item) &&
                    (jsHasKey item "date" || jsHasKey item "time" || jsHasKey item "timestamp")) then
              addSet types "timeline"
            else types
          | _ => types
        match value with
        | .vObj _ =>
          if jsHasKey value "timestamp" || jsHasKey value "date" || jsHasKey value "time" then
            addSet types "timeline"
          else addSet types "nested"
        | _ => types)
      []

/-- Embedding of `detectContextType(data)`: lower-cased top-level keys
are tested against fixed keyword lists in priority order; the financial
branch additionally requires that the joined key string does not contain
the substring "product". -/
def detectContextType (data : Obj) : String :=
  if (objKeys data).length = 0 then "generic"
  else
    let keys := (objKeys data).map jsToLower
    let keyString := String.intercalate " " keys
    if keys.any (fun k => ["commits", "contributors", "stars", "forks", "issues"].contains k) then
      "github_repo"
    else if keys.any (fun k => ["products", "orders", "revenue", "customers", "sales"].contains k) then
      "ecommerce"
    else if keys.any (fun k => ["pageviews", "visitors", "sessions", "traffic", "bounce"].contains k) then
      "analytics"
    else if keys.any (fun k => ["revenue", "expenses", "profit", "income", "costs"].contains k)
        && !(strIncludes keyString "product") then
      "financial"
    else if keys.any (fun k => ["tasks", "milestones", "team", "project", "completion"].contains k) then
      "project_management"
    else if keys.any (fun k => ["sensors", "devices", "temperature", "humidity", "alerts"].contains k) then
      "iot"
    else if keys.any (fun k => ["followers", "posts", "likes", "comments", "engagement"].contains k) then
      "social_media"
    else "generic"

/-- Clarifying question (`Question`). -/
structure Question where
  id : String
  text : String
  options : List String
  impact : String

/-- Layout hints of a domain configuration. -/
structure LayoutHints where
  preferredLayout : Option String := none
  metricDisplay : Option String := none
  listStyle : Option String := none
  emphasize : Option String := none

/-- Domain configuration (`DomainConfig`).  `createdAt` is a wall-clock
timestamp in the source (`new Date().toISOString()`); its value is never
read by any logic, so the model stores the empty string. -/
structure DomainConfig where
  id : String
  name : String
  description : String
  keywords : List String
  questions : List Question
  layoutHints : LayoutHints
  createdBy : String
  createdAt : String := ""

/-- The seven statically defined domains (`SYSTEM_DOMAINS`). -/
def SYSTEM_DOMAINS : List DomainConfig :=
  [ { id := "github_repo", name := "GitHub Repository",
      description := "Repository stats, commits, contributors, and code metrics",
      keywords := ["commits", "contributors", "stars", "forks", "issues", "pull_requests"],
      questions :=
        [ { id := "priority", text := "What is your primary focus?",
            options := ["Overview metrics", "Detailed lists", "Activity/timeline", "All equal"],
            impact := "layout_weight" },
          { id := "focus_area", text := "Which area matters most?",
            options := ["Code activity", "Issues & PRs", "Community", "CI/CD"],
            impact := "section_priority" } ],
      layoutHints := { preferredLayout := some "grid", emphasize := some "metrics" },
      createdBy := "system" },
    { id := "ecommerce", name := "E-commerce",
      description := "Sales, products, orders, and customer data",
      keywords := ["products", "orders", "revenue", "customers", "sales"],
      questions :=
        [ { id := "priority", text := "What is your primary focus?",
            options := ["Overview metrics", "Detailed lists", "Activity/timeline", "All equal"],
            impact := "layout_weight" },
          { id := "focus_area", text := "What should be highlighted?",
            options := ["Sales metrics", "Product inventory", "Customer data", "Recent orders"],
            impact := "section_priority" } ],
      layoutHints := { preferredLayout := some "grid", emphasize := some "balanced" },
      createdBy := "system" },
    { id := "analytics", name := "Analytics",
      description := "Website traffic, page views, and user behavior",
      keywords := ["pageviews", "visitors", "sessions", "traffic", "bounce"],
      questions :=
        [ { id := "priority", text := "What is your primary focus?",
            options := ["Overview metrics", "Detailed lists", "Activity/timeline", "All equal"],
            impact := "layout_weight" },
          { id := "time_range", text := "Default time range?",
            options := ["Today", "Week", "Month", "Quarter", "Year"],
            impact := "data_filter" } ],
      layoutHints := { preferredLayout := some "grid", emphasize := some "metrics" },
      createdBy := "system" },
    { id := "financial", name := "Financial",
      description := "Revenue, expenses, profit, and financial metrics",
      keywords := ["revenue", "expenses", "profit", "income", "costs"],
      questions :=
        [ { id := "priority", text := "What is your primary focus?",
            options := ["Overview metrics", "Detailed lists", "Activity/timeline", "All equal"],
            impact := "layout_weight" },
          { id := "time_range", text := "Default time range?",
            options := ["Today", "Week", "Month", "Quarter", "Year"],
            impact := "data_filter" } ],
      layoutHints := { preferredLayout := some "grid", emphasize := some "metrics" },
      createdBy := "system" },
    { id := "project_management", name := "Project Management",
      description := "Tasks, team members, milestones, and project tracking",
      keywords := ["tasks", "milestones", "team", "project", "completion"],
      questions :=
        [ { id := "priority", text := "What is your primary focus?",
            options := ["Overview metrics", "Detailed lists", "Activity/timeline", "All equal"],
            impact := "layout_weight" },
          { id := "focus_area", text := "What needs most attention?",
            options := ["Task progress", "Team allocation", "Timeline/milestones", "All equal"],
            impact := "section_priority" } ],
      layoutHints := { preferredLayout := some "grid", emphasize := some "lists" },
      createdBy := "system" },
    { id := "iot", name := "IoT/Sensors",
      description := "Device monitoring, sensor readings, and alerts",
      keywords := ["sensors", "devices", "temperature", "humidity", "alerts"],
      questions :=
        [ { id := "priority", text := "What is your primary focus?",
            options := ["Overview metrics", "Detailed lists", "Activity/timeline", "All equal"],
            impact := "layout_weight" },
          { id := "focus_area", text := "What is most important?",
            options := ["Device status", "Sensor readings", "Alerts", "All equal"],
            impact := "section_priority" } ],
      layoutHints := { preferredLayout := some "grid", emphasize := some "metrics" },
      createdBy := "system" },
    { id := "social_media", name := "Social Media",
      description := "Followers, posts, engagement, and social metrics",
      keywords := ["followers", "posts", "likes", "comments", "engagement"],
      questions :=
        [ { id := "priority", text := "What is your primary focus?",
            options := ["Overview metrics", "Detailed lists", "Activity/timeline", "All equal"],
            impact := "layout_weight" } ],
      layoutHints := { preferredLayout := some "grid", emphasize := some "balanced" },
      createdBy := "system" } ]

/-- Model of `getAllDomains()`: system domains followed by the module's
mutable AI-domain cache, passed explicitly (it is empty at process start
and in every scenario the claims exercise). -/
def getAllDomains (aiDomains : List DomainConfig) : List DomainConfig :=
  SYSTEM_DOMAINS ++ aiDomains

/-- Embedding of `matchDomain(data)`: each domain is scored by the
fraction of its keywords occurring as a substring of some lower-cased
top-level key; the first domain attaining the strictly highest positive
score wins, and is returned only when its score is at least 0.30.
The score `matchCount / keywords.length` is kept as the exact fraction
(numerator, denominator) and compared by cross-multiplication, which
coincides with the JS double comparison: both operands are exact small
rationals whose nearest doubles preserve the ordering at these
magnitudes, and a positive `matchCount` forces a positive denominator. -/
def matchDomain (data : Obj) (aiDomains : List DomainConfig) : Option DomainConfig :=
  let keys := (objKeys data).map jsToLower
  let best :=
    (getAllDomains aiDomains).foldl
      (fun (best : Option (DomainConfig × Nat × Nat)) domain =>
        let matchCount :=
          (domain.keywords.filter (fun kw =>
            keys.any (fun key => strIncludes key (jsToLower kw)))).length
        if matchCount > 0 then
          match best with
          | none => some (domain, matchCount, domain.keywords.length)
          | some (_, bestNum, bestDen) =>
            if matchCount * bestDen > bestNum * domain.keywords.length then
              some (domain, matchCount, domain.keywords.length)
            else best
        else best)
      none
  match best with
  | some (domain, num, den) => if 10 * num ≥ 3 * den then some domain else none
  | none => none

/-- Embedding of `generateQuestions(contextType, dataTypes, entities)`. -/
def generateQuestions (contextType : String) (dataTypes : List String)
    (entities : List String) : List Question :=
  let questions : List Question :=
    [ { id := "priority", text := "What is your primary focus?",
        options := ["Overview metrics", "Detailed lists", "Activity/timeline", "All equal"],
        impact := "layout_weight" } ]
  let questions := questions ++
    (if contextType = "github_repo" then
      [ { id := "focus_area", text := "Which area matters most?",
          options := ["Code activity", "Issues & PRs", "Community", "CI/CD"],
          impact := "section_priority" } ]
    else [])
  let questions := questions ++
    (if contextType = "ecommerce" then
      [ { id := "focus_area", text := "What should be highlighted?",
          options := ["Sales metrics", "Product inventory", "Customer data", "Recent orders"],
          impact := "section_priority" } ]
    else [])
  let questions := questions ++
    (if contextType = "analytics" || contextType = "financial" then
      [ { id := "time_range", text := "Default time range?",
          options := ["Today", "Week", "Month", "Quarter", "Year"],
          impact := "data_filter" } ]
    else [])
  let questions := questions ++
    (if contextType = "project_management" then
      [ { id := "focus_area", text := "What needs most attention?",
          options := ["Task progress", "Team allocation", "Timeline/milestones", "All equal"],
          impact := "section_priority" } ]
    else [])
  let questions := questions ++
    (if contextType = "iot" then
      [ { id := "focus_area", text := "What is most important?",
          options := ["Device status", "Sensor readings", "Alerts", "All equal"],
          impact := "section_priority" } ]
    else [])
  let questions := questions ++
    (if dataTypes.contains "metrics" then
      [ { id := "metric_style", text := "How should metrics be displayed?",
          options := ["Cards with trends", "Simple numbers", "With charts"],
          impact := "component_selection" } ]
    else [])
  let questions := questions ++
    (if dataTypes.contains "lists" then
      [ { id := "list_actions", text := "Need actions on list items?",
          options := ["View only", "Quick actions", "Full management"],
          impact := "interaction_level" } ]
    else [])
  questions ++
    (if dataTypes.contains "nested" && entities.length > 0 then
      [ { id := "chart_preference", text := "How to display nested data?",
          options := ["Charts/graphs", "Detailed tables", "Simple breakdown"],
          impact := "visualization_style" } ]
    else [])

/-- The result record of the analyzer (`ContextAnalysis`). -/
structure ContextAnalysis where
  dataTypes : List String
  entities : List String
  suggestedLayout : String
  detectedContext : String
  questions : List Question
  matchedDomain : Option DomainConfig

/-- JS truthy-or on an optional string (the `a || b` idiom where `a` may
be undefined or empty). -/
def orTruthy (a : Option String) (b : String) : String :=
  match a with
  | some s => if s = "" then b else s
  | none => b

/-- The analysis body of `analyzeContext(input, customDomain?)`, with
the module AI-domain cache passed explicitly, on inputs whose `data`
field is not null.  An input with an object-typed `data` field is
unwrapped (`InputContext` form), anything else is taken as raw data.
The full behaviour including the `data: null` TypeError is
`analyzeContextE`, which delegates to this function away from that
input. -/
def analyzeContext (input : Obj) (customDomain : Option DomainConfig)
    (aiDomains : List DomainConfig) : ContextAnalysis :=
  let unwrapped : Obj × Option String :=
    match objGet input "data" with
    | some (.vObj o) => (o, match objGet input "type" with | some (.vStr s) => some s | _ => none)
    | some (.vArr xs) => (arrayAsObj xs, match objGet input "type" with | some (.vStr s) => some s | _ => none)
    | _ => (input, none)
  let data := unwrapped.1
  let providedType := unwrapped.2
  let dataTypes := detectDataTypes data
  let domain :=
    match customDomain with
    | some d => some d
    | none => matchDomain data aiDomains
  let detectedContext :=
    orTruthy (domain.map DomainConfig.id) (orTruthy providedType (detectContextType data))
  let entities :=
    (objKeys data).filter (fun k =>
      match objGet data k with
      | some (.vArr _) => true
      | some (.vObj _) => true
      | _ => false)
  let suggestedLayout :=
    orTruthy (domain.bind (fun d => d.layoutHints.preferredLayout)) "grid"
  let suggestedLayout :=
    match domain with
    | some _ => suggestedLayout
    | none =>
      if dataTypes.length = 1 && dataTypes.headD "" = "lists" then "single-column"
      else if entities.length > 5 then "tabs"
      else if dataTypes.contains "metrics" && entities.length ≤ 2 then suggestedLayout
      else suggestedLayout
  let questions :=
    match domain with
    | some d => d.questions
    | none => generateQuestions detectedContext dataTypes entities
  { dataTypes := dataTypes, entities := entities, suggestedLayout := suggestedLayout,
    detectedContext := detectedContext, questions := questions, matchedDomain := domain }

/-- User answers (`UserAnswers`): mapping from question id to the chosen
option string. -/
abbrev Answers := List (String × String)

def getAnswer (answers : Answers) (k : String) : Option String :=
  (answers.find? (fun p => p.1 = k)).map Prod.snd

/-- The `answers.key || default` idiom: default on a missing or empty
answer. -/
def answerOr (answers : Answers) (k : String) (dflt : String) : String :=
  orTruthy (getAnswer answers k) dflt

def optTruthy : Option String → Bool
  | some s => s ≠ ""
  | none => false

/-- Whitespace trim on both ends, the model of `String.prototype.trim`
for the ASCII whitespace that can occur here. -/
def jsTrim (s : String) : String :=
  String.mk (((s.data.dropWhile Char.isWhitespace).reverse.dropWhile Char.isWhitespace).reverse)

/-- Embedding of `formatLabel(key)`: underscores to spaces, a space
before every capital letter, first character upper-cased, then trimmed. -/
def formatLabel (key : String) : String :=
  let s1 := key.data.map (fun c => if c = '_' then ' ' else c)
  let s2 := (s1.map (fun c => if c.isUpper then [' ', c] else [c])).flatten
  let s3 := match s2 with
    | [] => []
    | c :: rest => c.toUpper :: rest
  jsTrim (String.mk s3)

/-- Embedding of `guessIcon(key)`: fixed lookup on the lower-cased key,
defaulting to "info". -/
def guessIcon (key : String) : String :=
  match jsToLower key with
  | "stars" => "star"
  | "forks" => "fork"
  | "issues" => "issue"
  | "open_issues" => "issue"
  | "contributors" => "users"
  | "commits" => "git-commit"
  | "revenue" => "dollar"
  | "users" => "users"
  | "views" => "eye"
  | _ => "info"

/-- Embedding of `guessTrend(key)`: "up" when the lower-cased key
contains a positive keyword, "down" on a negative keyword, else
"neutral". -/
def guessTrend (key : String) : String :=
  let lowerKey := jsToLower key
  if ["revenue", "sales", "growth", "profit", "users", "followers", "stars"].any
      (fun k => strIncludes lowerKey k) then "up"
  else if ["issues", "errors", "bounce", "churn", "expenses"].any
      (fun k => strIncludes lowerKey k) then "down"
  else "neutral"

/-- Embedding of `getFocusKeywords(focusArea, contextType)`; the context
type parameter is accepted and ignored, as in the source. -/
def getFocusKeywords (focusArea : String) (contextType : String) : List String :=
  match focusArea with
  | "Code activity" => ["commit", "push", "branch", "merge"]
  | "Sales metrics" => ["revenue", "sales", "orders", "conversion"]
  | "Product inventory" => ["product", "stock", "inventory"]
  | "Task progress" => ["task", "completion", "progress"]
  | "Device status" => ["device", "online", "offline", "status"]
  | "Sensor readings" => ["temperature", "humidity", "sensor", "reading"]
  | _ => []

/-- Embedding of `sortEntitiesByFocus(entities, focusArea, contextType)`.
The source uses a stable `Array.sort` with a comparator that only
distinguishes focus-matching entities from the rest, which is exactly a
stable partition: matches first, then non-matches, each in original
order. -/
def sortEntitiesByFocus (entities : List String) (focusArea : String)
    (contextType : String) : List String :=
  let priorityKeys :=
    match focusArea with
    | "Code activity" => ["commits", "recent_commits", "activity"]
    | "Issues & PRs" => ["issues", "pull_requests", "prs"]
    | "Community" => ["contributors", "members", "users"]
    | "Sales metrics" => ["orders", "recent_orders", "sales"]
    | "Product inventory" => ["products", "inventory"]
    | "Customer data" => ["customers", "users", "clients"]
    | "Task progress" => ["tasks", "todos"]
    | "Team allocation" => ["team", "members", "team_members"]
    | "Device status" => ["devices", "sensors"]
    | "Sensor readings" => ["sensors", "readings", "metrics"]
    | "Alerts" => ["alerts", "warnings", "notifications"]
    | _ => []
  let isMatch := fun (a : String) => priorityKeys.any (fun k => strIncludes (jsToLower a) k)
  entities.filter isMatch ++ entities.filter (fun a => !(isMatch a))

/-- Model of `Object.keys(v)` on an arbitrary truthy receiver: objects
give their keys, arrays and strings their index keys, other primitives
none. -/
def jsKeysOf : Value → List String
  | .vObj fs => objKeys fs
  | .vArr xs => (List.range xs.length).map natToString
  | .vStr s => (List.range s.length).map natToString
  | _ => []

/-- Embedding of `findBestPrimaryField(keys, firstItem)`. -/
def findBestPrimaryField (keys : List String) (firstItem : Value) : String :=
  let preferredFields := ["name", "title", "orderId", "id", "month", "status", "source", "region", "ageGroup"]
  match preferredFields.find? (fun f => keys.contains f) with
  | some f => f
  | none =>
    match keys.find? (fun k => isStrV (propAccess firstItem k)) with
    | some k => k
    | none => orTruthy keys.head? "id"

/-- Embedding of `findBestSecondaryField(keys, firstItem, primaryField)`. -/
def findBestSecondaryField (keys : List String) (firstItem : Value)
    (primaryField : String) : Option String :=
  let preferredFields := ["description", "email", "date", "total", "revenue", "count", "value", "customerName"]
  match preferredFields.find? (fun f => keys.contains f && f ≠ primaryField) with
  | some f => some f
  | none =>
    match keys.find? (fun k => isNumV (propAccess firstItem k) && k ≠ primaryField) with
    | some k => some k
    | none =>
      if keys.length > 1 && keys.getD 1 "" ≠ primaryField then some (keys.getD 1 "") else none

/-- The `in` operator as an expression: throws a `TypeError` on a
non-object receiver (this is the one crash site of the generator, in
`buildListSection`, reachable when an entity array starts with a truthy
primitive). -/
def jsInE (k : String) (v : Value) : Except String Bool :=
  match v with
  | .vObj _ => .ok (jsHasKey v k)
  | .vArr _ => .ok (jsHasKey v k)
  | _ => .error "TypeError: cannot use in operator to search in a primitive"

/-- Embedding of `buildListSection(name, items, actionLevel, colspan,
priority)`.  The avatar prop mirrors the JS `&&` chain, which yields the
last evaluated operand: `false` when the array is empty, the falsy first
item itself when that is falsy, otherwise the boolean of the `in`
probes. -/
def listSectionAvatar (items : List Value) : Except String Value :=
  if items.length = 0 then pure (.vBool false)
  else
    let h := items.getD 0 .vUndef
    if !(jsTruthy h) then pure h
    else do
      let b1 ← jsInE "name" h
      if b1 then pure (Value.vBool true) else do
      let b2 ← jsInE "author" h
      if b2 then pure (Value.vBool true) else do
      let b3 ← jsInE "customer" h
      if b3 then pure (Value.vBool true) else do
      let b4 ← jsInE "customerName" h
      pure (Value.vBool b4)

def buildListSection (name : String) (items : List Value) (actionLevel : String)
    (colspan : Int) (priority : String) : Except String CSchema := do
  let actions : List Value :=
    if actionLevel = "Quick actions" then [.vStr "view", .vStr "edit"]
    else if actionLevel = "Full management" then [.vStr "view", .vStr "edit", .vStr "delete"]
    else []
  let avatarProp : Value ← listSectionAvatar items
  let template : Value :=
    if items.length > 0 && jsTruthy (items.getD 0 .vUndef) then
      let firstItem := items.getD 0 .vUndef
      let keys := jsKeysOf firstItem
      let primary := findBestPrimaryField keys firstItem
      let secondary := findBestSecondaryField keys firstItem primary
      .vObj [("primary", .vStr primary),
             ("secondary", match secondary with | some s => .vStr s | none => .vUndef)]
    else .vUndef
  pure (.node "Card"
    [("title", .vStr (formatLabel name)),
     ("colspan", .vNum (if priority = "Detailed lists" then 3 else colspan))]
    (some [.node "List"
      [("items", .vStr ("$data." ++ name)),
       ("avatar", avatarProp),
       ("actions", .vArr actions),
       ("template", template)] none]))

/-- Embedding of `selectBestColumns(firstItem)`: priority fields first,
then remaining keys, capped at six (the push-then-break loop adds a
field only while fewer than six are selected). -/
def selectBestColumns (firstItem : Value) : List String :=
  let allKeys := jsKeysOf firstItem
  let priorityFields := ["id", "name", "title", "status", "date", "total", "revenue", "count"]
  let selected :=
    priorityFields.foldl
      (fun sel f => if allKeys.contains f && sel.length < 6 then sel ++ [f] else sel) []
  allKeys.foldl
    (fun sel k => if !(sel.contains k) && sel.length < 6 then sel ++ [k] else sel) selected

/-- Embedding of `buildTableSection(name, items, colspan)`; an empty
array falls back to a list section with view-only actions. -/
def buildTableSection (name : String) (items : List Value) (colspan : Int) :
    Except String CSchema :=
  if items.length = 0 then buildListSection name items "View only" colspan "All equal"
  else
    let firstItem := items.getD 0 .vUndef
    let columns := selectBestColumns firstItem
    pure (.node "Card"
      [("title", .vStr (formatLabel name)), ("colspan", .vNum 3)]
      (some [.node "Table"
        [("columns", .vArr (columns.map Value.vStr)),
         ("rows", .vStr ("$data." ++ name)),
         ("sortable", .vBool true)] none]))

/-- Embedding of `buildChartSection(name, data, colspan)`: pie when every
value of the nested object is numeric, else bar. -/
def buildChartSection (name : String) (data : Obj) (colspan : Int) : CSchema :=
  let values := objValues data
  let hasOnlyNumbers := values.all isNumV
  .node "Card"
    [("title", .vStr (formatLabel name)), ("colspan", .vNum colspan)]
    (some [.node "Chart"
      [("type", .vStr (if hasOnlyNumbers then "pie" else "bar")),
       ("data", .vStr ("$data." ++ name))] none])

mutual
/-- JS `String(value)` coercion: arrays join their elements with commas,
rendering null and undefined elements as empty. -/
def jsString : Value → String
  | .vNull => "null"
  | .vUndef => "undefined"
  | .vNum n => intToString n
  | .vStr s => s
  | .vBool b => if b then "true" else "false"
  | .vObj _ => "[object Object]"
  | .vArr xs => jsStringArr xs

def jsStringArr : List Value → String
  | [] => ""
  | [v] => if isNullOrUndef v then "" else jsString v
  | v :: rest => (if isNullOrUndef v then "" else jsString v) ++ "," ++ jsStringArr rest
end

/-- Embedding of `buildBreakdownTable(name, data)`: one Metric per
nested entry, values stringified. -/
def buildBreakdownTable (name : String) (data : Obj) : CSchema :=
  .node "Card"
    [("title", .vStr (formatLabel name))]
    (some [.node "Container"
      [("cols", .vNum 1), ("gap", .vStr "sm")]
      (some ((objEntries data).map (fun kv =>
        CSchema.node "Metric"
          [("label", .vStr (formatLabel kv.1)),
           ("value", .vStr (jsString kv.2)),
           ("icon", .vStr "info")] none)))])

/-- Embedding of `buildMetricsSection(data, style, colspan, focusArea,
contextType)`: top-level numbers plus the flattened numeric entries of
any nested all-scalar object are metric candidates; an active focus area
filters them when it keeps at least one; each survivor becomes a Metric
node (with a trend only under the "Cards with trends" style), wrapped
according to the style. -/
def buildMetricsSection (data : Obj) (style : String) (colspan : Int)
    (focusArea : Option String) (contextType : String) : Option CSchema :=
  let metricEntries : List (String × Int) :=
    ((objEntries data).map (fun kv =>
      match kv.2 with
      | .vNum n => [(kv.1, n)]
      | .vObj fs =>
        let nestedValues := objEntries fs
        let allNumbers := nestedValues.all (fun p => isNumV p.2 || isStrV p.2)
        if allNumbers && nestedValues.length > 0 then
          nestedValues.filterMap (fun p =>
            match p.2 with
            | .vNum m => some (kv.1 ++ "." ++ p.1, m)
            | _ => none)
        else []
      | _ => [])).flatten
  if metricEntries.length = 0 then none
  else
    let relevantMetrics :=
      if optTruthy focusArea && contextType ≠ "" then
        let focusKeywords := getFocusKeywords (focusArea.getD "") contextType
        if focusKeywords.length > 0 then
          let focused := metricEntries.filter (fun p =>
            focusKeywords.any (fun kw => strIncludes (jsToLower p.1) kw))
          if focused.length > 0 then focused else metricEntries
        else metricEntries
      else metricEntries
    let metrics := relevantMetrics.map (fun p =>
      let metricProps :=
        [("label", Value.vStr (formatLabel p.1)),
         ("value", Value.vStr ("$data." ++ p.1)),
         ("icon", Value.vStr (guessIcon p.1))]
      let metricProps :=
        if style = "Cards with trends" then metricProps ++ [("trend", Value.vStr (guessTrend p.1))]
        else metricProps
      CSchema.node "Metric" metricProps none)
    if style = "Simple numbers" then
      some (.node "Section" [("title", .vStr "Key Metrics")]
        (some [.node "Container"
          [("cols", .vNum ((min metrics.length 4 : Nat) : Int)), ("gap", .vStr "sm")]
          (some metrics)]))
    else if style = "With charts" then
      some (.node "Card" [("title", .vStr "Performance Overview"), ("colspan", .vNum colspan)]
        (some [.node "Container"
          [("cols", .vNum ((min metrics.length 3 : Nat) : Int)), ("gap", .vStr "md")]
          (some metrics)]))
    else
      some (.node "Card" [("title", .vStr "Overview"), ("colspan", .vNum colspan)]
        (some [.node "Container"
          [("cols", .vNum ((min metrics.length 4 : Nat) : Int)), ("gap", .vStr "sm")]
          (some metrics)]))

/-- The entity loop of `generateUI`: for each entity whose data value is
an array, emit a table section (first item with more than four keys and
the "Detailed tables" chart preference) or a list section. -/
def buildEntitySections (data : Obj) (entities : List String) (chartPreference : String)
    (listActions : String) (listColspan : Int) (priority : String) :
    Except String (List CSchema) :=
  match entities with
  | [] => pure []
  | entity :: rest =>
    match objGet data entity with
    | some (.vArr items) => do
      let firstItem := items.getD 0 .vUndef
      let itemKeys := if jsTruthy firstItem then (jsKeysOf firstItem).length else 0
      let sec ←
        if itemKeys > 4 && chartPreference = "Detailed tables" then
          buildTableSection entity items listColspan
        else
          buildListSection entity items listActions listColspan priority
      let rest' ← buildEntitySections data rest chartPreference listActions listColspan priority
      pure (sec :: rest')
    | _ => buildEntitySections data rest chartPreference listActions listColspan priority

/-- The input unwrap at the top of `generateUI` on inputs whose `data`
field is not null: an object-typed `data` field is the data record,
anything else is taken as raw data. -/
def unwrapData (contextOrData : Obj) : Obj :=
  match objGet contextOrData "data" with
  | some (.vObj o) => o
  | some (.vArr xs) => arrayAsObj xs
  | _ => contextOrData

/-- The body of `generateUI` after the input unwrap. -/
def generateUIData (data : Obj) (analysis : ContextAnalysis) (answers : Answers) :
    Except String CSchema := do
  let priority := answerOr answers "priority" "All equal"
  let metricStyle := answerOr answers "metric_style" "Cards with trends"
  let listActions := answerOr answers "list_actions" "View only"
  let chartPreference := answerOr answers "chart_preference" "Charts/graphs"
  let focusArea := getAnswer answers "focus_area"
  let layoutCols : Int := if priority = "Activity/timeline" then 2 else 3
  let metricColspan : Int :=
    if priority = "Overview metrics" then 3
    else if priority = "Detailed lists" then 2
    else if priority = "Activity/timeline" then 2
    else 3
  let listColspan : Int :=
    if priority = "Overview metrics" then 1
    else if priority = "Detailed lists" then 3
    else if priority = "Activity/timeline" then 2
    else 2
  let children1 : List CSchema :=
    if analysis.dataTypes.contains "metrics" then
      match buildMetricsSection data metricStyle metricColspan focusArea analysis.detectedContext with
      | some s => [s]
      | none => []
    else []
  let sortedEntities :=
    if optTruthy focusArea then
      sortEntitiesByFocus analysis.entities (focusArea.getD "") analysis.detectedContext
    else analysis.entities
  let children2 ← buildEntitySections data sortedEntities chartPreference listActions listColspan priority
  let children3 : List CSchema :=
    if chartPreference ≠ "Simple breakdown" then
      ((objKeys data).filter (fun k =>
        match objGet data k with
        | some (.vObj _) => true
        | _ => false)).filterMap (fun key =>
          match objGet data key with
          | some (.vObj fs) =>
            let values := objValues fs
            let isMetricsContainer :=
              values.length > 0 && values.all (fun v => isNumV v || isStrV v)
            if isMetricsContainer && chartPreference ≠ "Charts/graphs" then none
            else if chartPreference = "Charts/graphs" then
              some (buildChartSection key fs (if metricStyle = "With charts" then 1 else 2))
            else if chartPreference = "Detailed tables" then
              some (buildBreakdownTable key fs)
            else none
          | _ => none)
    else []
  pure (.node "Container"
    [("cols", .vNum layoutCols),
     ("gap", .vStr (if priority = "Detailed lists" then "lg" else "md"))]
    (some (children1 ++ children2 ++ children3)))

/-- The body of `generateUI` when the unwrapped data record is null
(`data: null` takes the InputContext branch since
`typeof null === "object"`).  Null is only dereferenced lazily: the
metrics branch throws at the first `Object.keys(data)` inside
`buildMetricsSection`, the entity loop throws reading `data[entity]`,
and the chart branch throws at `Object.keys(data)` unless the chart
preference is `Simple breakdown`; when none of the three runs, the
function returns a Container with no children. -/
def generateUIDataNull (analysis : ContextAnalysis) (answers : Answers) :
    Except String CSchema :=
  let priority := answerOr answers "priority" "All equal"
  let chartPreference := answerOr answers "chart_preference" "Charts/graphs"
  let focusArea := getAnswer answers "focus_area"
  let layoutCols : Int := if priority = "Activity/timeline" then 2 else 3
  let sortedEntities :=
    if optTruthy focusArea then
      sortEntitiesByFocus analysis.entities (focusArea.getD "") analysis.detectedContext
    else analysis.entities
  if analysis.dataTypes.contains "metrics" then
    Except.error "TypeError: cannot convert undefined or null to object"
  else
    match sortedEntities with
    | _ :: _ => Except.error "TypeError: cannot read properties of null"
    | [] =>
      if chartPreference ≠ "Simple breakdown" then
        Except.error "TypeError: cannot convert undefined or null to object"
      else
        Except.ok (.node "Container"
          [("cols", .vNum layoutCols),
           ("gap", .vStr (if priority = "Detailed lists" then "lg" else "md"))]
          (some []))

/-- Embedding of `generateUI(contextOrData, analysis, answers)`: unwrap
the input (an object-typed `data` field is the data record, anything
else is raw data), then run the deterministic pipeline; a null data
record runs the pipeline with its lazy null dereferences.  The source
validates the finished schema and logs warnings without acting on
them, so the schema is returned unconditionally. -/
def generateUI (contextOrData : Obj) (analysis : ContextAnalysis) (answers : Answers) :
    Except String CSchema :=
  match objGet contextOrData "data" with
  | some Value.vNull => generateUIDataNull analysis answers
  | _ => generateUIData (unwrapData contextOrData) analysis answers

def joinComma : List String → String
  | [] => ""
  | [s] => s
  | s :: rest => s ++ "," ++ joinComma rest

/-- JSON string escaping for the characters that need it; the inputs the
repository hashes contain none of them beyond quotes and backslashes. -/
def jsonQuote (s : String) : String :=
  "\"" ++ String.mk ((s.data.map (fun c =>
    if c = '"' then ['\\', '"']
    else if c = '\\' then ['\\', '\\']
    else if c = '\n' then ['\\', 'n']
    else if c = '\t' then ['\\', 't']
    else if c = '\r' then ['\\', 'r']
    else [c])).flatten) ++ "\""

mutual
/-- Model of `JSON.stringify` on the values the repository serialises:
object fields with undefined values are skipped, undefined array
elements render as null (an undefined at top level cannot occur — the
callers always pass an object).  Fields are serialised in order; a real
JS object has unique keys, so no deduplication is needed here. -/
def jsonStringify : Value → String
  | .vNull => "null"
  | .vUndef => "null"
  | .vNum n => intToString n
  | .vStr s => jsonQuote s
  | .vBool b => if b then "true" else "false"
  | .vArr xs => "[" ++ joinComma (jsonArrParts xs) ++ "]"
  | .vObj fs => "\x7b" ++ joinComma (jsonFieldParts fs) ++ "\x7d"

def jsonArrParts : List Value → List String
  | [] => []
  | v :: rest => jsonStringify v :: jsonArrParts rest

def jsonFieldParts : List (String × Value) → List String
  | [] => []
  | (k, v) :: rest =>
    match v with
    | .vUndef => jsonFieldParts rest
    | _ => (jsonQuote k ++ ":" ++ jsonStringify v) :: jsonFieldParts rest
end

/-- Wrap an integer to the signed 32-bit range, the effect of JS
`| 0`-style coercions (`<<` and `&`). -/
def toInt32 (n : Int) : Int := (n + 2147483648) % 4294967296 - 2147483648

/-- One step of the rolling hash: `hash = ((hash << 5) - hash) + char`
followed by `hash = hash & hash`.  With `hash` already a signed 32-bit
value, `hash << 5` is the 32-bit wrap of `hash * 32`, the subtraction
and addition are exact in doubles at these magnitudes, and `hash & hash`
wraps the result back to 32 bits. -/
def hashStep (hash : Int) (c : Char) : Int :=
  toInt32 (toInt32 (hash * 32) - hash + (c.toNat : Int))

def base36Char (d : Nat) : Char :=
  if d < 10 then Char.ofNat (48 + d) else Char.ofNat (87 + d)

def toBase36Go : Nat → Nat → List Char
  | 0, _ => []
  | fuel + 1, n =>
    if n < 36 then [base36Char n]
    else toBase36Go fuel (n / 36) ++ [base36Char (n % 36)]

/-- Base-36 rendering of a natural number, the model of
`Number.prototype.toString(36)` for non-negative integers (fuel-based so
it reduces in the kernel; fuel n+1 always suffices). -/
def toBase36 (n : Nat) : String := String.mk (toBase36Go (n + 1) n)

/-- Embedding of `hashContext(contextOrData)`: the 31-multiplier rolling
hash of the JSON serialisation, wrapped to 32 bits at every step, then
absolute value, base-36, first 12 characters. -/
def hashContext (contextOrData : Value) : String :=
  let str := jsonStringify contextOrData
  let hash := str.data.foldl hashStep 0
  String.mk ((toBase36 hash.natAbs).data.take 12)

/-- Evolution diff (`EvolutionDiff`). -/
structure EvolutionDiff where
  operation : String
  path : String
  value : Option CSchema

/-- One history record of a `UIState`. -/
structure HistoryEntry where
  version : String
  diff : EvolutionDiff
  timestamp : String

/-- UI state wrapper (`UIState`). -/
structure UIState where
  version : String
  contextHash : String
  schema : CSchema
  createdAt : String
  history : List HistoryEntry

/-- Embedding of `createUIState(contextOrData, schema)`; the wall-clock
`createdAt` is passed explicitly. -/
def createUIState (contextOrData : Value) (schema : CSchema) (now : String) : UIState :=
  { version := "1.0.0", contextHash := hashContext contextOrData, schema := schema,
    createdAt := now, history := [] }

/-- Model of JS `Number(s)` on the strings a version split can produce:
the empty string is 0, an optionally negative all-digit string is its
value, anything else is NaN (`none`).  (JS `Number` also parses floats,
exponents and hex, which no version component in this codebase ever
contains.) -/
def jsNumber (s : String) : Option Int :=
  if s = "" then some 0
  else
    match s.data with
    | '-' :: rest =>
      if rest ≠ [] && allDigits rest then some (-(digitsToNat (String.mk rest) : Int)) else none
    | cs => if allDigits cs then some ((digitsToNat s : Int)) else none

def numRender : Option Int → String
  | some n => intToString n
  | none => "NaN"

/-- Embedding of `incrementVersion(version)`: split on dots, coerce the
first three parts with `Number` (a missing part destructures to
`undefined` and renders as such; `undefined + 1` and `NaN + 1` are both
NaN), and re-join with the patch component incremented. -/
def incrementVersion (version : String) : String :=
  let parts := splitOnDot version
  let renderPart := fun (i : Nat) =>
    match parts.get? i with
    | none => "undefined"
    | some s => numRender (jsNumber s)
  let patch : Option Int :=
    match parts.get? 2 with
    | none => none
    | some s => jsNumber s
  renderPart 0 ++ "." ++ renderPart 1 ++ "." ++ numRender (patch.map (fun p => p + 1))

/-- Embedding of `evolveUI(state, operation, path, value?)`, functional
reading of the in-place mutation: push one history entry carrying the
pre-increment version and the diff, append `value` to the root children
when the operation is "add" and a value is given (the path string is
recorded but never interpreted), and increment the version. -/
def evolveUI (state : UIState) (operation : String) (path : String)
    (value : Option CSchema) (now : String) : UIState :=
  let newVersion := incrementVersion state.version
  let history := state.history ++
    [{ version := state.version,
       diff := { operation := operation, path := path, value := value },
       timestamp := now }]
  let schema :=
    if operation = "add" && value.isSome then
      match state.schema with
      | .node c props children =>
        CSchema.node c props (some ((children.getD []) ++ [value.getD (.node "" [] none)]))
    else state.schema
  { version := newVersion, contextHash := state.contextHash, schema := schema,
    createdAt := state.createdAt, history := history }

/-! Specification-side predicates and concrete inputs used by the
theorems below. -/

/-- Denotation of a dotted path, written from the specification: the
value stored at the end of the path is obtained by taking one segment
access step per segment. -/
def walkPath (cur : Value) (segs : List String) : Value := segs.foldl segAccess cur

/-- All intermediate values met by the traversal (the value in hand
before each segment is consumed) are defined and non-null. -/
def pathOk : Value → List String → Bool
  | _, [] => true
  | cur, seg :: rest => !(isNullOrUndef cur) && pathOk (segAccess cur seg) rest

/-- Along the proper prefix of a path, every key that already exists in
the object holds a plain object (a missing key is fine — the setter
creates a fresh empty object for it). -/
def setPrefixOk : Obj → List String → Bool
  | _, [] => true
  | fs, k :: ks =>
    match objGet fs k with
    | none => true
    | some (.vObj fs2) => setPrefixOk fs2 ks
    | some _ => false

mutual
/-- A node somewhere in the tree has an unknown component kind or lacks
a required prop — the specification-side characterisation of a
validation failure. -/
def hasBadNode : CSchema → Bool
  | .node c props ch =>
    (match COMPONENT_SPECS c with
     | none => true
     | some spec => spec.2.any (fun r => !(propsHave props r))) || hasBadChildren ch

def hasBadChildren : Option (List CSchema) → Bool
  | none => false
  | some cs => hasBadList cs

def hasBadList : List CSchema → Bool
  | [] => false
  | c :: cs => hasBadNode c || hasBadList cs
end

mutual
/-- Number of Metric nodes in a schema tree. -/
def countMetricNodes : CSchema → Nat
  | .node c _ ch => (if c = "Metric" then 1 else 0) + countMetricChildren ch

def countMetricChildren : Option (List CSchema) → Nat
  | none => 0
  | some cs => countMetricList cs

def countMetricList : List CSchema → Nat
  | [] => 0
  | c :: cs => countMetricNodes c + countMetricList cs
end

def firstChild : CSchema → Option CSchema
  | .node _ _ (some (c :: _)) => some c
  | _ => none

def schemaChildren : CSchema → Option (List CSchema)
  | .node _ _ ch => ch

/-- The GitHub-repository example input of the specification: stars,
forks, three recent commits, three contributors, and a language
breakdown. -/
def githubData : Obj :=
  [ ("stars", .vNum 1247), ("forks", .vNum 89),
    ("recent_commits", .vArr
      [ .vObj [("message", .vStr "fix: resolve auth issue"), ("author", .vStr "alice"), ("time", .vStr "2h ago")],
        .vObj [("message", .vStr "feat: add rate limiting"), ("author", .vStr "bob"), ("time", .vStr "5h ago")],
        .vObj [("message", .vStr "docs: update README"), ("author", .vStr "carol"), ("time", .vStr "1d ago")] ]),
    ("contributors", .vArr
      [ .vObj [("name", .vStr "alice"), ("commits", .vNum 142)],
        .vObj [("name", .vStr "bob"), ("commits", .vNum 89)],
        .vObj [("name", .vStr "carol"), ("commits", .vNum 34)] ]),
    ("languages", .vObj [("TypeScript", .vNum 65), ("Python", .vNum 30), ("Shell", .vNum 5)]) ]

/-- The answers of the specification example. -/
def githubAnswers : Answers :=
  [("priority", "Overview metrics"), ("metric_style", "Cards with trends"),
   ("list_actions", "Quick actions"), ("chart_preference", "Charts/graphs")]

/-- The schema the deterministic pipeline produces for the GitHub
example (analysis computed by the analyzer, then the generator). -/
def githubGenerated : Except String CSchema :=
  generateUI githubData (analyzeContext githubData none []) githubAnswers

/-- The tree `githubGenerated` actually contains, spelled out. -/
def githubExpected : CSchema :=
  .node "Container" [("cols", .vNum 3), ("gap", .vStr "md")] (some
    [ .node "Card" [("title", .vStr "Overview"), ("colspan", .vNum 3)] (some
        [ .node "Container" [("cols", .vNum 4), ("gap", .vStr "sm")] (some
            [ .node "Metric" [("label", .vStr "Stars"), ("value", .vStr "$data.stars"),
                ("icon", .vStr "star"), ("trend", .vStr "up")] none,
              .node "Metric" [("label", .vStr "Forks"), ("value", .vStr "$data.forks"),
                ("icon", .vStr "fork"), ("trend", .vStr "neutral")] none,
              .node "Metric" [("label", .vStr "Languages. Type Script"), ("value", .vStr "$data.languages.TypeScript"),
                ("icon", .vStr "info"), ("trend", .vStr "neutral")] none,
              .node "Metric" [("label", .vStr "Languages. Python"), ("value", .vStr "$data.languages.Python"),
                ("icon", .vStr "info"), ("trend", .vStr "neutral")] none,
              .node "Metric" [("label", .vStr "Languages. Shell"), ("value", .vStr "$data.languages.Shell"),
                ("icon", .vStr "info"), ("trend", .vStr "neutral")] none ]) ]),
      .node "Card" [("title", .vStr "Recent commits"), ("colspan", .vNum 1)] (some
        [ .node "List" [("items", .vStr "$data.recent_commits"), ("avatar", .vBool true),
            ("actions", .vArr [.vStr "view", .vStr "edit"]),
            ("template", .vObj [("primary", .vStr "message"), ("secondary", .vStr "author")])] none ]),
      .node "Card" [("title", .vStr "Contributors"), ("colspan", .vNum 1)] (some
        [ .node "List" [("items", .vStr "$data.contributors"), ("avatar", .vBool true),
            ("actions", .vArr [.vStr "view", .vStr "edit"]),
            ("template", .vObj [("primary", .vStr "name"), ("secondary", .vStr "commits")])] none ]),
      .node "Card" [("title", .vStr "Languages"), ("colspan", .vNum 2)] (some
        [ .node "Chart" [("type", .vStr "pie"), ("data", .vStr "$data.languages")] none ]) ])

/-! Helper lemmas shared by the claim theorems below. -/

theorem segAccessE_ok (cur : Value) (seg : String) (h : isNullOrUndef cur = false) :
    segAccessE cur seg = .ok (segAccess cur seg) := by
  unfold segAccessE segAccess
  cases hp : parseArraySeg seg with
  | none =>
    cases cur <;> simp_all [propAccessE, isNullOrUndef]
  | some pair =>
    cases cur <;> simp_all [propAccessE, isNullOrUndef, bind, Except.bind] <;>
      split <;> rfl

theorem getNestedGo_isOk : ∀ (segs : List String) (cur : Value), (getNestedGo cur segs).isOk = true := by
  intro segs
  induction segs with
  | nil => intro cur; rfl
  | cons seg rest ih =>
    intro cur
    unfold getNestedGo
    cases h : isNullOrUndef cur with
    | true => rfl
    | false =>
      rw [segAccessE_ok cur seg h]
      simpa [bind, Except.bind] using ih (segAccess cur seg)

theorem getNestedGo_pathOk : ∀ (segs : List String) (cur : Value), pathOk cur segs = true →
    getNestedGo cur segs = .ok (walkPath cur segs) := by
  intro segs
  induction segs with
  | nil => intro cur _; rfl
  | cons seg rest ih =>
    intro cur hok
    unfold pathOk at hok
    simp only [Bool.and_eq_true, Bool.not_eq_eq_eq_not, Bool.not_true] at hok
    obtain ⟨h1, h2⟩ := hok
    unfold getNestedGo
    rw [h1, segAccessE_ok cur seg h1]
    simpa [bind, Except.bind, walkPath] using ih (segAccess cur seg) h2

theorem getNestedGo_pathBad : ∀ (segs : List String) (cur : Value), pathOk cur segs = false →
    getNestedGo cur segs = .ok Value.vUndef := by
  intro segs
  induction segs with
  | nil => intro cur h; simp [pathOk] at h
  | cons seg rest ih =>
    intro cur hbad
    unfold getNestedGo
    cases h : isNullOrUndef cur with
    | true => rfl
    | false =>
      rw [segAccessE_ok cur seg h]
      unfold pathOk at hbad
      rw [h] at hbad
      simp at hbad
      simpa [bind, Except.bind] using ih (segAccess cur seg) hbad

-- C5 claim theorem
theorem getNestedGo_cons_notnull (cur : Value) (seg : String) (rest : List String)
    (h : isNullOrUndef cur = false) :
    getNestedGo cur (seg :: rest) = getNestedGo (segAccess cur seg) rest := by
  have heq : getNestedGo cur (seg :: rest) =
      if isNullOrUndef cur = true then Except.ok Value.vUndef
      else bind (segAccessE cur seg) (fun nxt => getNestedGo nxt rest) := rfl
  rw [heq, h, segAccessE_ok cur seg h]
  simp [bind, Except.bind]

theorem setPrefixOk_nil : ∀ (ks : List String), setPrefixOk [] ks = true := by
  intro ks
  cases ks with
  | nil => rfl
  | cons k ks2 => simp [setPrefixOk, objGet]

theorem objGet_objSet (fs : Obj) (k : String) (v : Value) :
    objGet (objSet fs k v) k = some v := by
  induction fs with
  | nil => simp [objSet, objGet]
  | cons p rest ih =>
    obtain ⟨k0, v0⟩ := p
    by_cases h : k0 = k
    · subst h
      simp [objSet, objGet]
    · simp only [objSet, if_neg h]
      simpa [objGet, List.find?, h] using ih

theorem roundtrip_go : ∀ (init : List String) (fs : Obj) (last : String) (v : Value),
    (∀ s ∈ init, parseArraySeg s = none) → parseArraySeg last = none →
    setPrefixOk fs init = true →
    ∃ fs2, setNestedGo (.vObj fs) init last v = .ok (.vObj fs2) ∧
      getNestedGo (.vObj fs2) (init ++ [last]) = .ok v := by
  intro init
  induction init with
  | nil =>
    intro fs last v _ hlast _
    refine ⟨objSet fs last v, rfl, ?_⟩
    rw [List.nil_append, getNestedGo_cons_notnull (.vObj (objSet fs last v)) last [] rfl]
    simp [getNestedGo, segAccess, hlast, propAccess, objGet_objSet]
  | cons k ks ih =>
    intro fs last v hseg hlast hpre
    have hk : parseArraySeg k = none := hseg k (by simp)
    have hks : ∀ s ∈ ks, parseArraySeg s = none := fun s hs => hseg s (by simp [hs])
    unfold setPrefixOk at hpre
    have hchild : ∃ cfs, (objGet fs k).getD (.vObj []) = .vObj cfs ∧ setPrefixOk cfs ks = true := by
      cases hget : objGet fs k with
      | none => exact ⟨[], by simp [hget], setPrefixOk_nil ks⟩
      | some w =>
        cases w <;> simp [hget] at hpre ⊢
        · exact hpre
    obtain ⟨cfs, hcfs, hpre2⟩ := hchild
    obtain ⟨cfs2, hset, hget2⟩ := ih cfs last v hks hlast hpre2
    refine ⟨objSet fs k (.vObj cfs2), ?_, ?_⟩
    · unfold setNestedGo
      simp [hcfs, hset, bind, Except.bind, pure, Except.pure]
    · rw [List.cons_append, getNestedGo_cons_notnull (.vObj (objSet fs k (.vObj cfs2))) k (ks ++ [last]) rfl]
      have hstep : segAccess (.vObj (objSet fs k (.vObj cfs2))) k = .vObj cfs2 := by
        simp [segAccess, hk, propAccess, objGet_objSet]
      rw [hstep]
      exact hget2

theorem splitOnDotAux_ne_nil : ∀ (cs acc : List Char), splitOnDotAux cs acc ≠ [] := by
  intro cs
  induction cs with
  | nil => intro acc; simp [splitOnDotAux]
  | cons c rest ih =>
    intro acc
    unfold splitOnDotAux
    split
    · simp
    · exact ih _

mutual
theorem validateErrors_eq_nil_iff : ∀ (s : CSchema), validateErrors s = [] ↔ hasBadNode s = false
  | .node c props ch => by
    rw [show validateErrors (.node c props ch) =
        (match COMPONENT_SPECS c with
         | none => ["Unknown component: " ++ c]
         | some spec =>
           ((spec.2.filter (fun req => !(propsHave props req))).map
             (fun req => c ++ " missing required prop: " ++ req)) ++ validateChildrenErrors ch)
      from rfl]
    rw [show hasBadNode (.node c props ch) =
        ((match COMPONENT_SPECS c with
          | none => true
          | some spec => spec.2.any (fun r => !(propsHave props r))) || hasBadChildren ch)
      from rfl]
    cases hspec : COMPONENT_SPECS c with
    | none => simp
    | some spec =>
      dsimp only
      have hch := validateChildrenErrors_eq_nil_iff ch
      constructor
      · intro hnil
        rw [List.append_eq_nil] at hnil
        obtain ⟨h1, h2⟩ := hnil
        rw [List.map_eq_nil_iff, List.filter_eq_nil_iff] at h1
        have hany : spec.2.any (fun r => !(propsHave props r)) = false := by
          rw [List.any_eq_false]
          intro r hr
          have := h1 r hr
          simpa using this
        rw [hany, hch.mp h2]
        rfl
      · intro hbad
        rw [Bool.or_eq_false_iff] at hbad
        obtain ⟨h1, h2⟩ := hbad
        rw [List.any_eq_false] at h1
        have hfil : spec.2.filter (fun r => !(propsHave props r)) = [] := by
          rw [List.filter_eq_nil_iff]
          intro r hr
          have := h1 r hr
          simpa using this
        rw [hfil]
        simp [hch.mpr h2]

theorem validateChildrenErrors_eq_nil_iff : ∀ (ch : Option (List CSchema)),
    validateChildrenErrors ch = [] ↔ hasBadChildren ch = false
  | none => by simp [validateChildrenErrors, hasBadChildren]
  | some cs => by
    rw [show validateChildrenErrors (some cs) = validateListErrors cs from rfl,
        show hasBadChildren (some cs) = hasBadList cs from rfl]
    exact validateListErrors_eq_nil_iff cs

theorem validateListErrors_eq_nil_iff : ∀ (l : List CSchema),
    validateListErrors l = [] ↔ hasBadList l = false
  | [] => by simp [validateListErrors, hasBadList]
  | c :: cs => by
    rw [show validateListErrors (c :: cs) = validateErrors c ++ validateListErrors cs from rfl,
        show hasBadList (c :: cs) = (hasBadNode c || hasBadList cs) from rfl]
    rw [List.append_eq_nil, Bool.or_eq_false_iff]
    exact and_congr (validateErrors_eq_nil_iff c) (validateListErrors_eq_nil_iff cs)
end

-- C6 claim theorem
theorem validNode (c : String) (props : List (String × Value)) (ch : Option (List CSchema))
    (spec : List String × List String) (hspec : COMPONENT_SPECS c = some spec)
    (hreq : ∀ r ∈ spec.2, propsHave props r = true)
    (hch : validateChildrenErrors ch = []) :
    validateErrors (.node c props ch) = [] := by
  rw [show validateErrors (.node c props ch) =
      (match COMPONENT_SPECS c with
       | none => ["Unknown component: " ++ c]
       | some spec =>
         ((spec.2.filter (fun req => !(propsHave props req))).map
           (fun req => c ++ " missing required prop: " ++ req)) ++ validateChildrenErrors ch)
    from rfl]
  rw [hspec]
  dsimp only
  have hfil : List.filter (fun r => !propsHave props r) spec.2 = [] := by
    rw [List.filter_eq_nil_iff]
    intro r hr
    simp [hreq r hr]
  rw [hfil, hch]
  rfl

theorem validateListErrors_of_all : ∀ (l : List CSchema),
    (∀ c ∈ l, validateErrors c = []) → validateListErrors l = [] := by
  intro l
  induction l with
  | nil => intro _; rfl
  | cons c cs ih =>
    intro h
    rw [show validateListErrors (c :: cs) = validateErrors c ++ validateListErrors cs from rfl]
    rw [h c (by simp), ih (fun x hx => h x (by simp [hx]))]
    rfl

theorem validChildrenList (l : List CSchema) (h : ∀ c ∈ l, validateErrors c = []) :
    validateChildrenErrors (some l) = [] := by
  rw [show validateChildrenErrors (some l) = validateListErrors l from rfl]
  exact validateListErrors_of_all l h

theorem metricNode_valid (props : List (String × Value))
    (h1 : propsHave props "label" = true) (h2 : propsHave props "value" = true) :
    validateErrors (.node "Metric" props none) = [] := by
  refine validNode _ _ _ _ rfl ?_ rfl
  intro r hr
  simp only [show (COMPONENT_SPECS "Metric").get rfl =
    (["label", "value", "trend", "icon"], ["label", "value"]) from rfl] at hr
  fin_cases hr
  · exact h1
  · exact h2

theorem buildChartSection_valid (name : String) (fs : Obj) (colspan : Int) :
    validateErrors (buildChartSection name fs colspan) = [] := by
  unfold buildChartSection
  refine validNode _ _ _ _ rfl ?_ (validChildrenList _ ?_)
  · intro r hr
    fin_cases hr
    simp [propsHave]
  · intro c hc
    simp only [List.mem_singleton] at hc
    subst hc
    refine validNode _ _ _ _ rfl ?_ rfl
    intro r hr
    fin_cases hr <;> simp [propsHave]

theorem buildBreakdownTable_valid (name : String) (fs : Obj) :
    validateErrors (buildBreakdownTable name fs) = [] := by
  unfold buildBreakdownTable
  refine validNode _ _ _ _ rfl ?_ (validChildrenList _ ?_)
  · intro r hr
    fin_cases hr
    simp [propsHave]
  · intro c hc
    simp only [List.mem_singleton] at hc
    subst hc
    refine validNode _ _ _ _ rfl ?_ (validChildrenList _ ?_)
    · intro r hr
      fin_cases hr
    · intro c hc
      obtain ⟨kv, hkv, rfl⟩ := List.mem_map.mp hc
      apply metricNode_valid <;> simp [propsHave]


theorem buildMetricsSection_valid (data : Obj) (style : String) (colspan : Int)
    (fa : Option String) (ct : String) (s : CSchema)
    (h : buildMetricsSection data style colspan fa ct = some s) :
    validateErrors s = [] := by
  unfold buildMetricsSection at h
  dsimp only at h
  split at h
  · exact absurd h (by simp)
  · have hmet : ∀ (l : List (String × Int)),
        ∀ c ∈ l.map (fun p =>
          CSchema.node "Metric"
            (if style = "Cards with trends" then
              [("label", Value.vStr (formatLabel p.1)),
               ("value", Value.vStr ("$data." ++ p.1)),
               ("icon", Value.vStr (guessIcon p.1))] ++ [("trend", Value.vStr (guessTrend p.1))]
            else
              [("label", Value.vStr (formatLabel p.1)),
               ("value", Value.vStr ("$data." ++ p.1)),
               ("icon", Value.vStr (guessIcon p.1))]) none),
          validateErrors c = [] := by
      intro l c hc
      obtain ⟨p, hp, rfl⟩ := List.mem_map.mp hc
      split <;> apply metricNode_valid <;> simp [propsHave]
    split at h
    · rw [Option.some_inj] at h
      subst h
      refine validNode _ _ _ _ rfl ?_ (validChildrenList _ ?_)
      · intro r hr
        fin_cases hr
        simp [propsHave]
      · intro c hc
        simp only [List.mem_singleton] at hc
        subst hc
        refine validNode _ _ _ _ rfl ?_ (validChildrenList _ ?_)
        · intro r hr
          fin_cases hr
        · exact hmet _
    · split at h
      · rw [Option.some_inj] at h
        subst h
        refine validNode _ _ _ _ rfl ?_ (validChildrenList _ ?_)
        · intro r hr
          fin_cases hr
          simp [propsHave]
        · intro c hc
          simp only [List.mem_singleton] at hc
          subst hc
          refine validNode _ _ _ _ rfl ?_ (validChildrenList _ ?_)
          · intro r hr
            fin_cases hr
          · exact hmet _
      · rw [Option.some_inj] at h
        subst h
        refine validNode _ _ _ _ rfl ?_ (validChildrenList _ ?_)
        · intro r hr
          fin_cases hr
          simp [propsHave]
        · intro c hc
          simp only [List.mem_singleton] at hc
          subst hc
          refine validNode _ _ _ _ rfl ?_ (validChildrenList _ ?_)
          · intro r hr
            fin_cases hr
          · exact hmet _


theorem buildListSection_valid (name : String) (items : List Value) (al : String)
    (colspan : Int) (priority : String) (s : CSchema)
    (h : buildListSection name items al colspan priority = .ok s) :
    validateErrors s = [] := by
  simp only [buildListSection] at h
  cases hav : listSectionAvatar items with
  | error e => rw [hav] at h; exact absurd h (by simp [bind, Except.bind])
  | ok av =>
    rw [hav] at h
    simp only [bind, Except.bind, pure, Except.pure, Except.ok.injEq] at h
    subst h
    refine validNode _ _ _ _ rfl ?_ (validChildrenList _ ?_)
    · intro r hr
      fin_cases hr
      simp [propsHave]
    · intro c hc
      simp only [List.mem_singleton] at hc
      subst hc
      refine validNode _ _ _ _ rfl ?_ rfl
      intro r hr
      fin_cases hr
      simp [propsHave]

theorem buildTableSection_valid (name : String) (items : List Value) (colspan : Int)
    (s : CSchema) (h : buildTableSection name items colspan = .ok s) :
    validateErrors s = [] := by
  unfold buildTableSection at h
  split at h
  · exact buildListSection_valid _ _ _ _ _ _ h
  · simp only [pure, Except.pure, Except.ok.injEq] at h
    subst h
    refine validNode _ _ _ _ rfl ?_ (validChildrenList _ ?_)
    · intro r hr
      fin_cases hr
      simp [propsHave]
    · intro c hc
      simp only [List.mem_singleton] at hc
      subst hc
      refine validNode _ _ _ _ rfl ?_ rfl
      intro r hr
      fin_cases hr <;> simp [propsHave]

theorem bind_cons_ok (x : Except String CSchema) (r : Except String (List CSchema))
    (l : List CSchema)
    (h : (do
      let y ← x
      let rest2 ← r
      pure (y :: rest2) : Except String (List CSchema)) = Except.ok l) :
    ∃ sec l2, x = .ok sec ∧ r = .ok l2 ∧ l = sec :: l2 := by
  cases x with
  | error e => simp [bind, Except.bind] at h
  | ok sec =>
    cases r with
    | error e => simp [bind, Except.bind] at h
    | ok l2 =>
      simp only [bind, Except.bind, pure, Except.pure, Except.ok.injEq] at h
      exact ⟨sec, l2, rfl, rfl, h.symm⟩

theorem buildEntitySections_valid (data : Obj) : ∀ (entities : List String)
    (cp la : String) (lc : Int) (pr : String) (l : List CSchema),
    buildEntitySections data entities cp la lc pr = .ok l →
    ∀ c ∈ l, validateErrors c = [] := by
  intro entities
  induction entities with
  | nil =>
    intro cp la lc pr l h
    simp only [buildEntitySections, pure, Except.pure, Except.ok.injEq] at h
    subst h
    intro c hc
    simp at hc
  | cons e rest ih =>
    intro cp la lc pr l h
    unfold buildEntitySections at h
    split at h
    next items heq =>
      dsimp only at h
      split at h <;> split at h
      · obtain ⟨sec, l2, hts, hrec, rfl⟩ :=
          bind_cons_ok (buildTableSection e items lc)
            (buildEntitySections data rest cp la lc pr) l h
        intro c hc
        rcases List.mem_cons.mp hc with rfl | hc2
        · exact buildTableSection_valid _ _ _ _ hts
        · exact ih cp la lc pr l2 hrec c hc2
      · obtain ⟨sec, l2, hts, hrec, rfl⟩ :=
          bind_cons_ok (buildListSection e items la lc pr)
            (buildEntitySections data rest cp la lc pr) l h
        intro c hc
        rcases List.mem_cons.mp hc with rfl | hc2
        · exact buildListSection_valid _ _ _ _ _ _ hts
        · exact ih cp la lc pr l2 hrec c hc2
      · obtain ⟨sec, l2, hts, hrec, rfl⟩ :=
          bind_cons_ok (buildTableSection e items lc)
            (buildEntitySections data rest cp la lc pr) l h
        intro c hc
        rcases List.mem_cons.mp hc with rfl | hc2
        · exact buildTableSection_valid _ _ _ _ hts
        · exact ih cp la lc pr l2 hrec c hc2
      · obtain ⟨sec, l2, hts, hrec, rfl⟩ :=
          bind_cons_ok (buildListSection e items la lc pr)
            (buildEntitySections data rest cp la lc pr) l h
        intro c hc
        rcases List.mem_cons.mp hc with rfl | hc2
        · exact buildListSection_valid _ _ _ _ _ _ hts
        · exact ih cp la lc pr l2 hrec c hc2
    next w hne =>
      exact ih cp la lc pr l h


theorem generateUIData_valid (data : Obj) (analysis : ContextAnalysis) (answers : Answers)
    (s : CSchema) (h : generateUIData data analysis answers = .ok s) :
    validateErrors s = [] := by
  simp only [generateUIData, bind, Except.bind] at h
  split at h
  next err heq => exact absurd h (by simp)
  next v heq =>
    simp only [pure, Except.pure, Except.ok.injEq] at h
    subst h
    refine validNode _ _ _ _ rfl ?_ (validChildrenList _ ?_)
    · intro r hr
      exact absurd hr (List.not_mem_nil r)
    · intro c hc
      rcases List.mem_append.mp hc with hc1 | hc3
      · rcases List.mem_append.mp hc1 with hm | hv
        · -- metrics section
          split at hm
          · split at hm
            next s0 hms =>
              simp only [List.mem_singleton] at hm
              subst hm
              exact buildMetricsSection_valid _ _ _ _ _ _ hms
            next hms => exact absurd hm (List.not_mem_nil c)
          · exact absurd hm (List.not_mem_nil c)
        · exact buildEntitySections_valid _ _ _ _ _ _ _ heq c hv
      · -- chart / breakdown section
        split at hc3
        · obtain ⟨key, hkey, hfm⟩ := List.mem_filterMap.mp hc3
          split at hfm
          next fs hobj =>
            split at hfm
            · exact absurd hfm (by simp)
            · split at hfm
              · rw [Option.some_inj] at hfm
                subst hfm
                exact buildChartSection_valid _ _ _
              · split at hfm
                · rw [Option.some_inj] at hfm
                  subst hfm
                  exact buildBreakdownTable_valid _ _
                · exact absurd hfm (by simp)
          next w hnw => exact absurd hfm (by simp)
        · exact absurd hc3 (List.not_mem_nil c)



theorem generateUIDataNull_valid (analysis : ContextAnalysis) (answers : Answers)
    (s : CSchema) (h : generateUIDataNull analysis answers = .ok s) :
    validateSchema s = (true, []) := by
  simp only [generateUIDataNull] at h
  split at h
  · exact absurd h (by simp)
  · split at h
    next => exact absurd h (by simp)
    next =>
      split at h
      · exact absurd h (by simp)
      · rw [Except.ok.injEq] at h
        subst h
        rfl

mutual
theorem validateErrorsE_agrees : ∀ (s : CSchema), hasProtoKeyNode s = false →
    validateErrorsE s = .ok (validateErrors s)
  | .node c props ch => by
    intro hnp
    rw [show hasProtoKeyNode (.node c props ch) =
        (OBJECT_PROTO_KEYS.contains c || hasProtoKeyChildren ch) from rfl,
      Bool.or_eq_false_iff] at hnp
    rw [show validateErrorsE (.node c props ch) =
        (match COMPONENT_SPECS c with
         | some spec =>
           bind (validateChildrenErrorsE ch) (fun childErrs =>
             pure (((spec.2.filter (fun req => !(propsHave props req))).map
               (fun req => c ++ " missing required prop: " ++ req)) ++ childErrs))
         | none =>
           if OBJECT_PROTO_KEYS.contains c then
             Except.error "TypeError: spec.required is not iterable"
           else Except.ok ["Unknown component: " ++ c]) from rfl]
    rw [show validateErrors (.node c props ch) =
        (match COMPONENT_SPECS c with
         | none => ["Unknown component: " ++ c]
         | some spec =>
           ((spec.2.filter (fun req => !(propsHave props req))).map
             (fun req => c ++ " missing required prop: " ++ req)) ++ validateChildrenErrors ch)
      from rfl]
    cases hspec : COMPONENT_SPECS c with
    | none =>
      dsimp only
      rw [hnp.1]
      rfl
    | some spec =>
      dsimp only
      rw [validateChildrenErrorsE_agrees ch hnp.2]
      rfl

theorem validateChildrenErrorsE_agrees : ∀ (ch : Option (List CSchema)),
    hasProtoKeyChildren ch = false → validateChildrenErrorsE ch = .ok (validateChildrenErrors ch)
  | none => fun _ => rfl
  | some cs => fun h => by
    rw [show hasProtoKeyChildren (some cs) = hasProtoKeyList cs from rfl] at h
    rw [show validateChildrenErrorsE (some cs) = validateListErrorsE cs from rfl,
      show validateChildrenErrors (some cs) = validateListErrors cs from rfl]
    exact validateListErrorsE_agrees cs h

theorem validateListErrorsE_agrees : ∀ (l : List CSchema),
    hasProtoKeyList l = false → validateListErrorsE l = .ok (validateListErrors l)
  | [] => fun _ => rfl
  | c :: cs => fun h => by
    rw [show hasProtoKeyList (c :: cs) = (hasProtoKeyNode c || hasProtoKeyList cs) from rfl,
      Bool.or_eq_false_iff] at h
    rw [show validateListErrorsE (c :: cs) =
        bind (validateErrorsE c) (fun e1 =>
          bind (validateListErrorsE cs) (fun e2 => pure (e1 ++ e2))) from rfl]
    rw [validateErrorsE_agrees c h.1, validateListErrorsE_agrees cs h.2]
    rfl
end

/-! Claim theorems.  Each theorem settles one claim of the specification
against the embedded code. -/

/-- C5: for every nested mapping and dotted path whose intermediates all
exist and are non-null, `getNestedValue` returns exactly the value
stored at the end of the path; if the traversal meets a null or
undefined intermediate the result is undefined; and the function never
throws, for any object and path. -/
theorem c5_getNestedValue :
    (∀ (obj : Value) (path : String), (getNestedValue obj path).isOk = true) ∧
    (∀ (fs : Obj) (path : String), path ≠ "" →
      (pathOk (.vObj fs) (splitOnDot path) = true →
        getNestedValue (.vObj fs) path = .ok (walkPath (.vObj fs) (splitOnDot path))) ∧
      (pathOk (.vObj fs) (splitOnDot path) = false →
        getNestedValue (.vObj fs) path = .ok Value.vUndef)) := by
  constructor
  · intro obj path
    unfold getNestedValue
    split
    · rfl
    · exact getNestedGo_isOk _ _
  · intro fs path hpath
    constructor
    · intro hok
      unfold getNestedValue
      rw [if_neg (by simp [jsTruthy, hpath])]
      exact getNestedGo_pathOk _ _ hok
    · intro hbad
      unfold getNestedValue
      rw [if_neg (by simp [jsTruthy, hpath])]
      exact getNestedGo_pathBad _ _ hbad

/-- Witness for C5 at a concrete three-level mapping. -/
theorem c5_getNestedValue_witness :
    getNestedValue (.vObj [("user", .vObj [("profile", .vObj [("name", .vStr "John")])])])
      "user.profile.name" = .ok (.vStr "John") :=
  (c5_getNestedValue.2 [("user", .vObj [("profile", .vObj [("name", .vStr "John")])])]
    "user.profile.name" (by decide)).1 (by rfl)

/-- C4 counterexample: the round-trip fails as stated because
`setNestedValue` throws when an existing intermediate holds a
non-object; with `M = a maps to 1` and path `a.b` the final assignment
lands on the number 1 and raises a TypeError, so no updated mapping is
produced at all. -/
theorem c4_counterexample :
    setNestedValue [("a", .vNum 1)] "a.b" (.vNum 42) =
      .error "TypeError: cannot create property on primitive" := rfl

/-- C4, amended: the set-then-get round-trip holds for every mapping,
value, and dotted path of nonempty plain-name segments (no bracket
indices) such that every already-existing value along the proper
prefixes of the path is itself a plain object. -/
theorem c4_roundtrip (m : Obj) (path : String) (v : Value)
    (hseg : ∀ s ∈ splitOnDot path, s ≠ "" ∧ parseArraySeg s = none)
    (hpre : setPrefixOk m (splitOnDot path).dropLast = true) :
    ∃ m2, setNestedValue m path v = .ok m2 ∧ getNestedValue (.vObj m2) path = .ok v := by
  have hne : splitOnDot path ≠ [] := splitOnDotAux_ne_nil _ _
  have hlastm : (splitOnDot path).getLast hne ∈ splitOnDot path := List.getLast_mem hne
  obtain ⟨hlne, hlpa⟩ := hseg _ hlastm
  have hpathne : path ≠ "" := by
    intro hp
    subst hp
    exact (hseg "" (by decide)).1 rfl
  have hsegs : (splitOnDot path).dropLast ++ [(splitOnDot path).getLast hne] = splitOnDot path :=
    List.dropLast_append_getLast hne
  have hinit : ∀ s ∈ (splitOnDot path).dropLast, parseArraySeg s = none := by
    intro s hs
    exact (hseg s (by rw [← hsegs]; exact List.mem_append_left _ hs)).2
  obtain ⟨fs2, hset, hget⟩ := roundtrip_go (splitOnDot path).dropLast m
    ((splitOnDot path).getLast hne) v hinit hlpa hpre
  refine ⟨fs2, ?_, ?_⟩
  · simp only [setNestedValue]
    rw [List.getLast?_eq_getLast _ hne]
    simp only [if_neg hlne]
    rw [hset]
    rfl
  · unfold getNestedValue
    rw [if_neg (by simp [jsTruthy, hpathne])]
    rw [← hsegs]
    exact hget

/-- Witness for C4 at a concrete mapping whose intermediate exists and
is an object. -/
theorem c4_roundtrip_witness :
    ∃ m2, setNestedValue [("a", .vObj [("b", .vNum 0)])] "a.b" (.vNum 42) = .ok m2 ∧
      getNestedValue (.vObj m2) "a.b" = .ok (.vNum 42) :=
  c4_roundtrip [("a", .vObj [("b", .vNum 0)])] "a.b" (.vNum 42) (by decide) (by rfl)

/-- C6 counterexample: the validator is not exception-free — on a node
whose component string is `toString`, the lookup
`COMPONENT_SPECS[schema.component]` finds the inherited
`Object.prototype.toString` function, the unknown-kind guard does not
fire, and the iteration over the undefined `spec.required` throws a
TypeError instead of reporting an unknown component. -/
theorem c6_counterexample :
    validateSchemaE (.node "toString" [] none) =
      .error "TypeError: spec.required is not iterable" := rfl

/-- C6, amended: validating a Metric node with empty props yields
exactly the two expected errors; provided no component string of the
tree is an `Object.prototype` member name, the validator never throws
and agrees with its total model, whose valid flag is the emptiness of
the error list and whose error list is non-empty exactly when some
node has an unknown component kind or lacks a required prop (children
error lists concatenated); on a prototype member name it throws a
TypeError. -/
theorem c6_validateSchema :
    validateSchemaE (.node "Metric" [] none) =
      .ok (false, ["Metric missing required prop: label", "Metric missing required prop: value"]) ∧
    (∀ s : CSchema, hasProtoKeyNode s = false →
      validateSchemaE s = .ok (validateSchema s)) ∧
    (∀ s : CSchema, ((validateSchema s).1 = true ↔ (validateSchema s).2 = [])) ∧
    (∀ s : CSchema, ((validateSchema s).2 ≠ [] ↔ hasBadNode s = true)) := by
  refine ⟨rfl, ?_, ?_, ?_⟩
  · intro s h
    unfold validateSchemaE
    rw [validateErrorsE_agrees s h]
    rfl
  · intro s
    simp [validateSchema, List.isEmpty_iff]
  · intro s
    rw [show (validateSchema s).2 = validateErrors s from rfl]
    constructor
    · intro hne
      cases hb : hasBadNode s with
      | true => rfl
      | false => exact absurd ((validateErrors_eq_nil_iff s).mpr hb) hne
    · intro hb hnil
      rw [(validateErrors_eq_nil_iff s).mp hnil] at hb
      simp at hb

/-- Witness for C6 at a concrete prototype-free tree. -/
theorem c6_validateSchema_witness :
    validateSchemaE (.node "Card" [("title", .vStr "t")] (some
      [.node "Metric" [("label", .vStr "l"), ("value", .vNum 1)] none])) = .ok (true, []) :=
  c6_validateSchema.2.1
    (.node "Card" [("title", .vStr "t")] (some
      [.node "Metric" [("label", .vStr "l"), ("value", .vNum 1)] none])) (by rfl)

/-- C2 counterexample: on the input with keys revenue and expenses the
code returns "ecommerce", not "financial" — the keyword revenue belongs
to the e-commerce list, which is tested before the financial one. -/
theorem c2_counterexample :
    detectContextType [("revenue", .vNum 1), ("expenses", .vNum 2)] ≠ "financial" := by
  intro h
  rw [show detectContextType [("revenue", .vNum 1), ("expenses", .vNum 2)] = "ecommerce"
    from rfl] at h
  simp at h

/-- C2, amended: the first two examples hold as claimed, and the third
input with keys revenue and expenses is classified "ecommerce" (revenue
is in the e-commerce keyword list, which has priority over financial). -/
theorem c2_detectContextType :
    detectContextType [("stars", .vNum 1), ("forks", .vNum 2), ("commits", .vNum 3)] = "github_repo" ∧
    detectContextType [("revenue", .vNum 1), ("products", .vArr [.vNum 1])] = "ecommerce" ∧
    detectContextType [("revenue", .vNum 1), ("expenses", .vNum 2)] = "ecommerce" :=
  ⟨rfl, rfl, rfl⟩

/-- C9: `extractBindings` returns the two bindings of the specification
example, and on an input where the item binding precedes the data
binding it still lists the data match first — the data-then-item
ordering of the claim, not document order. -/
theorem c9_extractBindings :
    extractBindings "$data.a.b and $item.c" = ["$data.a.b", "$item.c"] ∧
    extractBindings "$item.c then $data.a" = ["$data.a", "$item.c"] := ⟨rfl, rfl⟩

/-- C8 counterexample: the context hash is not injective — two inputs
differing in a key collide, because the 31-multiplier rolling hash gives
the strings Aa and BB the same value. -/
theorem c8_counterexample :
    (createUIState (.vObj [("Aa", .vNum 1)]) (.node "Container" [] none) "2024-01-01").contextHash =
      (createUIState (.vObj [("BB", .vNum 1)]) (.node "Container" [] none) "2024-01-01").contextHash ∧
    (Value.vObj [("Aa", .vNum 1)]) ≠ .vObj [("BB", .vNum 1)] := by
  refine ⟨rfl, ?_⟩
  intro h
  injection h with h2
  simp at h2

/-- C8, amended: `createUIState` on identical input always produces the
same context hash (the hash is a pure function of the serialised input
and ignores the creation time), but distinct inputs may collide. -/
theorem c8_contextHash_deterministic (x : Value) (sch : CSchema) (t1 t2 : String) :
    (createUIState x sch t1).contextHash = (createUIState x sch t2).contextHash ∧
    (createUIState x sch t1).contextHash = hashContext x := ⟨rfl, rfl⟩

/-- C7: for any state whose version is a canonical dotted numeral
triple, `evolveUI` renders the new version with only the patch component
incremented (for every operation), appends exactly one history entry
carrying the pre-increment version and a diff whose value equals the
node, and, for the add operation, appends the node as the last root
child regardless of the path string. -/
theorem c7_evolveUI (state : UIState) (op path : String) (node : CSchema) (now : String)
    (ma mi pa : String) (a b c : Int)
    (hsplit : splitOnDot state.version = [ma, mi, pa])
    (hma : jsNumber ma = some a) (hmb : jsNumber mi = some b) (hmc : jsNumber pa = some c)
    (hca : ma = intToString a) (hcb : mi = intToString b) :
    (evolveUI state op path (some node) now).version = ma ++ "." ++ mi ++ "." ++ intToString (c + 1) ∧
    (evolveUI state op path (some node) now).history =
      state.history ++ [⟨state.version, ⟨op, path, some node⟩, now⟩] ∧
    (op = "add" →
      schemaChildren (evolveUI state op path (some node) now).schema =
        some ((schemaChildren state.schema).getD [] ++ [node])) := by
  refine ⟨?_, rfl, ?_⟩
  · simp [evolveUI, incrementVersion, hsplit, hma, hmb, hmc, numRender]
    rw [← hca, ← hcb]
  · intro hop
    subst hop
    cases hsch : state.schema with
    | node c0 p0 ch0 =>
      simp [evolveUI, hsch, schemaChildren]

/-- Witness for C7 at a concrete state with version 1.0.0. -/
theorem c7_evolveUI_witness :
    (evolveUI ⟨"1.0.0", "h", .node "Container" [] none, "t", []⟩ "add" "root.children[4]"
        (some (.node "Card" [("title", .vStr "CI")] none)) "t1").version =
      "1" ++ "." ++ "0" ++ "." ++ intToString (0 + 1) :=
  (c7_evolveUI ⟨"1.0.0", "h", .node "Container" [] none, "t", []⟩ "add" "root.children[4]"
    (.node "Card" [("title", .vStr "CI")] none) "t1" "1" "0" "0" 1 0 0
    rfl rfl rfl rfl rfl rfl).1

/-- C1 counterexample: on the GitHub example the Overview card holds 5
Metric nodes, not 2 — the all-numeric languages object is flattened into
three additional dotted-path metrics. -/
theorem c1_counterexample :
    githubGenerated.map (fun s => (firstChild s).map countMetricNodes) = .ok (some 5) ∧
    githubGenerated.map (fun s => (firstChild s).map countMetricNodes) ≠ .ok (some 2) := by
  refine ⟨rfl, ?_⟩
  intro h
  rw [show githubGenerated.map (fun s => (firstChild s).map countMetricNodes) = .ok (some 5)
    from rfl] at h
  simp at h

/-- C1, amended: the pipeline output on the GitHub example is exactly
the expected tree — a root Container with cols 3 whose first child is
the Overview card (colspan 3) holding five Metric nodes each carrying a
trend (stars, forks, and the three flattened language percentages),
followed by the two List cards bound to the recent commits and the
contributors, followed by the pie Chart card bound to the languages. -/
theorem c1_generateUI_github : githubGenerated = .ok githubExpected := rfl

/-- C10: every schema the deterministic generator returns passes the
contract validator with no errors. -/
theorem c10_generateUI_valid (cod : Obj) (analysis : ContextAnalysis) (answers : Answers)
    (s : CSchema) (h : generateUI cod analysis answers = .ok s) :
    validateSchema s = (true, []) := by
  unfold generateUI at h
  split at h
  · exact generateUIDataNull_valid analysis answers s h
  · have hv := generateUIData_valid (unwrapData cod) analysis answers s h
    simp [validateSchema, hv]

/-- Witness for C10 on the empty data object. -/
theorem c10_generateUI_valid_witness :
    validateSchema (.node "Container" [("cols", .vNum 3), ("gap", .vStr "md")] (some [])) =
      (true, []) :=
  c10_generateUI_valid [] ⟨[], [], "grid", "generic", [], none⟩ []
    (.node "Container" [("cols", .vNum 3), ("gap", .vStr "md")] (some [])) rfl

end GenUI
